import Mathlib

/-!
# Hoverfly: request matching, template store and request fingerprint

A shallow embedding of `core/matching/request_template_store.go`,
`core/matching/matcher.go` and `core/models/payload.go`.

Conventions of the embedding
* a Go `string` is a Lean `String`; only equality, concatenation, emptiness and
  suffix tests are ever performed on it, and `[]byte(s)` / `string(b)` are the identity;
* a Go `*string` is an `Option String` (`none` is the nil pointer);
* a Go `[]string` is an `Option (List String)`: `none` is the nil slice, `some xs` a
  non-nil slice, because `reflect.DeepEqual` tells the two apart;
* a Go `map[string][]string` is a list of entries with pairwise distinct keys; reading a
  missing key gives the nil slice, and a nil map behaves as the empty map under every
  operation the code performs on it (index, range);
* a Go `error` is the message it carries, and for an error of the cache the kind of
  failure (key not found, backend failure); `(T, error)` results are `Except`;
* the iteration order of a Go map is unspecified: `headerMatch` is modelled in the order of
  the entry list, and `headerMatch_iff` shows its result depends on the lookups alone;
* `crypto/md5`, the `tdewolff/minify` minifiers, `encoding/gob`, `encoding/base64` and
  `http.DetectContentType` are parameters (`Lib`), the `cache.Cache` interface is a
  parameter (`CacheOps`);
* a function that can dereference a nil pointer returns `Except GoPanic`;
* logging has no effect on results and is left out.
-/

namespace Hoverfly

/-! ## Go values -/

/-- Go `[]string`: `none` is the nil slice, `some xs` a non-nil slice holding `xs`. -/
abbrev StringSlice := Option (List String)

/-- The elements a `range` over the slice visits (`len` is the length of this list). -/
def StringSlice.elems : StringSlice → List String
  | none => []
  | some xs => xs

/-- Elementwise comparison of two element lists already known to have the same length. -/
def elemsEqual : List String → List String → Bool
  | a :: as, b :: bs => a == b && elemsEqual as bs
  | _, _ => true

/-- Go `reflect.DeepEqual` on two `[]string` values: both nil or both non-nil, the same
length, and corresponding elements equal. -/
def DeepEqual : StringSlice → StringSlice → Bool
  | none, none => true
  | some a, some b => a.length == b.length && elemsEqual a b
  | _, _ => false

/-- Go `map[string][]string` (also `http.Header`): entries with pairwise distinct keys. -/
structure HeaderMap where
  entries : List (String × StringSlice)
  nodup : (entries.map Prod.fst).Nodup

/-- The empty map (and the nil map, which reads and ranges the same way). -/
def HeaderMap.empty : HeaderMap := ⟨[], List.nodup_nil⟩

/-- The map holding the single entry `k : v`. -/
def HeaderMap.single (k : String) (v : StringSlice) : HeaderMap :=
  ⟨[(k, v)], by simp⟩

/-- Go `v, ok := m[k]`: `some v` when the key is present. -/
def HeaderMap.get? (m : HeaderMap) (k : String) : Option StringSlice :=
  m.entries.lookup k

/-- Go `m[k]`: the value stored under `k`, the nil slice when the key is missing. -/
def HeaderMap.index (m : HeaderMap) (k : String) : StringSlice :=
  match m.get? k with
  | some v => v
  | none => none

/-- Go `p != nil && *p == s` for a `*string`. -/
def setAndEq (p : Option String) (s : String) : Bool :=
  match p with
  | some v => v == s
  | none => false

/-- Go `p != nil && *p != s` for a `*string`. -/
def setAndNe (p : Option String) (s : String) : Bool :=
  match p with
  | some v => v != s
  | none => false

/-! ## net/http request, as far as the matcher reads it -/

/-- The fields of `url.URL` the code reads, and the scheme of the request. -/
structure URL where
  Scheme : String
  Path : String
  RawPath : String
  RawQuery : String

/-- What `ioutil.ReadAll` gives on a request body: the bytes read and a possible error. -/
structure ReadResult where
  data : String
  err : Option String

/-- The fields of `http.Request` the code reads; `Body = none` is a nil body. -/
structure Request where
  Method : String
  URL : Hoverfly.URL
  Host : String
  Header : HeaderMap
  Body : Option ReadResult

/-! ## models (payload.go) -/

/-- The type `models.ResponseDetails`. -/
structure ResponseDetails where
  Status : Int
  Body : String
  Headers : HeaderMap

/-- The type `models.RequestDetails`. -/
structure RequestDetails where
  Path : String
  Method : String
  Destination : String
  Scheme : String
  Query : String
  Body : String
  Headers : HeaderMap

/-- The type `models.Payload`. -/
structure Payload where
  Response : ResponseDetails
  Request : RequestDetails

/-- The Go zero value of `RequestDetails`. -/
def RequestDetails.zero : RequestDetails :=
  { Path := "", Method := "", Destination := "", Scheme := "", Query := "", Body := "",
    Headers := HeaderMap.empty }

/-! ## matching (request_template_store.go) -/

/-- The type `matching.RequestTemplate`: every field but `Headers` is a `*string`. -/
structure RequestTemplate where
  Path : Option String
  Method : Option String
  Destination : Option String
  Scheme : Option String
  Query : Option String
  Body : Option String
  Headers : HeaderMap

/-- The type `matching.RequestTemplatePayload`. -/
structure RequestTemplatePayload where
  RequestTemplate : Hoverfly.RequestTemplate
  Response : ResponseDetails

/-- The type `matching.RequestTemplateStore`, a slice of entries in insertion order. -/
abbrev RequestTemplateStore := List RequestTemplatePayload

/-- The loop of `headerMatch` over the template's entries: the first header that is
missing from the request or whose value is not deeply equal ends it with `false`. -/
def headerMatchLoop : List (String × StringSlice) → HeaderMap → Bool
  | [], _ => true
  | (headerName, headerVal) :: rest, reqHeaders =>
    match reqHeaders.get? headerName with
    | some reqHeaderVal =>
      if DeepEqual headerVal reqHeaderVal then headerMatchLoop rest reqHeaders else false
    | none => false

/-- Go `headerMatch(tmplHeaders, reqHeaders)`. -/
def headerMatch (tmplHeaders reqHeaders : HeaderMap) : Bool :=
  headerMatchLoop tmplHeaders.entries reqHeaders

/-- Go `RequestTemplateStore.GetPayload`: each `continue` of the loop is a recursive call
on the remaining entries. -/
def RequestTemplateStore.GetPayload :
    RequestTemplateStore → Request → String → Bool → Except String Payload
  | [], _, _, _ => .error "No match found"
  | entry :: rest, req, reqBody, webserver =>
    if setAndEq entry.RequestTemplate.Body reqBody then
      RequestTemplateStore.GetPayload rest req reqBody webserver
    else if !webserver && setAndNe entry.RequestTemplate.Destination req.Host then
      RequestTemplateStore.GetPayload rest req reqBody webserver
    else if setAndNe entry.RequestTemplate.Path req.URL.Path then
      RequestTemplateStore.GetPayload rest req reqBody webserver
    else if setAndNe entry.RequestTemplate.Query req.URL.RawQuery then
      RequestTemplateStore.GetPayload rest req reqBody webserver
    else if !headerMatch entry.RequestTemplate.Headers req.Header then
      RequestTemplateStore.GetPayload rest req reqBody webserver
    else if setAndNe entry.RequestTemplate.Method req.Method then
      RequestTemplateStore.GetPayload rest req reqBody webserver
    else
      .ok { Response := entry.Response, Request := RequestDetails.zero }

/-- One entry passes every check of the loop body of `GetPayload`, in the order the code
makes them: none of the six `continue` conditions holds. -/
def passesChecks (entry : RequestTemplatePayload) (req : Request) (reqBody : String)
    (webserver : Bool) : Bool :=
  !setAndEq entry.RequestTemplate.Body reqBody
    && !(!webserver && setAndNe entry.RequestTemplate.Destination req.Host)
    && !setAndNe entry.RequestTemplate.Path req.URL.Path
    && !setAndNe entry.RequestTemplate.Query req.URL.RawQuery
    && headerMatch entry.RequestTemplate.Headers req.Header
    && !setAndNe entry.RequestTemplate.Method req.Method

/-! ## models (payload.go): the request fingerprint -/

/-- A byte string, Go `[]byte` holding binary data. -/
abbrev Bytes := List (Fin 256)

/-- The library functions the code calls and this repository does not define:
`crypto/md5` (the 16-byte digest of a string), the JSON and XML minifiers of
`tdewolff/minify`, the `encoding/gob` encoder and decoder for `Payload`,
`base64.StdEncoding.EncodeToString` and `DecodeString` (the bytes decoded, and the error
if the text is not valid base64) and `http.DetectContentType`. -/
structure Lib where
  md5Sum : String → Bytes
  jsonMinify : String → Except String String
  xmlMinify : String → Except String String
  gobEncode : Payload → Except String Bytes
  gobDecode : Bytes → Except String Payload
  base64Encode : String → String
  base64Decode : String → String × Option String
  detectContentType : String → String

/-- The constant `contentTypeJSON`. -/
def contentTypeJSON : String := "application/json"

/-- The constant `contentTypeXML`. -/
def contentTypeXML : String := "application/xml"

/-- The constant `otherType`. -/
def otherType : String := "otherType"

/-- Go `rxJSON.MatchString(v)` for `rxJSON = regexp.MustCompile("[/+]json$")`: the text
ends with `/json` or with `+json`. -/
def rxJSON (v : String) : Bool :=
  "/json".data.isSuffixOf v.data || "+json".data.isSuffixOf v.data

/-- Go `rxXML.MatchString(v)` for `rxXML = regexp.MustCompile("[/+]xml$")`: the text ends
with `/xml` or with `+xml`. -/
def rxXML (v : String) : Bool :=
  "/xml".data.isSuffixOf v.data || "+xml".data.isSuffixOf v.data

/-- Go `minifiers.String(mediaType, v)` for the `minifiers` that `init` prepares: the XML
pattern is registered first, then the JSON pattern; the first pattern that matches the
media type selects the minifier, and no matching pattern is an error. -/
def minifiersString (lib : Lib) (mediaType v : String) : Except String String :=
  if rxXML mediaType then lib.xmlMinify v
  else if rxJSON mediaType then lib.jsonMinify v
  else .error "minifier does not exist for mimetype"

/-- The loop of `getContentType` over the values of the `Content-Type` header. -/
def getContentTypeLoop : List String → String
  | [] => otherType
  | v :: vs =>
    if rxJSON v then contentTypeJSON
    else if rxXML v then contentTypeXML
    else getContentTypeLoop vs

/-- Go `RequestDetails.getContentType`. -/
def RequestDetails.getContentType (r : RequestDetails) : String :=
  getContentTypeLoop (r.Headers.index "Content-Type").elems

/-- Go `RequestDetails.minifyBody`: the minified body, the raw body when minifying fails. -/
def RequestDetails.minifyBody (lib : Lib) (r : RequestDetails) (mediaType : String) : String :=
  match minifiersString lib mediaType r.Body with
  | .error _ => r.Body
  | .ok minified => minified

/-- Go `RequestDetails.concatenate`: the writes to the buffer, in order. -/
def RequestDetails.concatenate (lib : Lib) (r : RequestDetails) (withHost : Bool) : String :=
  let buffer := ""
  let buffer := if withHost then buffer ++ r.Destination else buffer
  let buffer := buffer ++ r.Path
  let buffer := buffer ++ r.Method
  let buffer := buffer ++ r.Query
  if r.Body.length > 0 then
    let ct := r.getContentType
    if ct == contentTypeJSON || ct == contentTypeXML then
      buffer ++ r.minifyBody lib ct
    else
      buffer ++ r.Body
  else
    buffer

/-- One lowercase hexadecimal digit, for `n < 16`. -/
def hexDigit (n : Nat) : Char :=
  if n < 10 then Char.ofNat (48 + n) else Char.ofNat (87 + n)

/-- Go `fmt.Sprintf("%x", b)` for a byte slice: two lowercase hex digits per byte. -/
def fmtHex : Bytes → String
  | [] => ""
  | b :: bs => String.mk [hexDigit (b.val / 16), hexDigit (b.val % 16)] ++ fmtHex bs

/-- Go `RequestDetails.Hash`. -/
def RequestDetails.Hash (lib : Lib) (r : RequestDetails) : String :=
  fmtHex (lib.md5Sum (r.concatenate lib true))

/-- Go `RequestDetails.HashWithoutHost`. -/
def RequestDetails.HashWithoutHost (lib : Lib) (r : RequestDetails) : String :=
  fmtHex (lib.md5Sum (r.concatenate lib false))

/-- Go `Payload.Id`. -/
def Payload.Id (lib : Lib) (p : Payload) : String :=
  p.Request.Hash lib

/-- Go `Payload.IdWithoutHost`. -/
def Payload.IdWithoutHost (lib : Lib) (p : Payload) : String :=
  p.Request.HashWithoutHost lib

/-- Go `Payload.Encode`: the gob encoding of the payload. -/
def Payload.Encode (lib : Lib) (p : Payload) : Except String Bytes :=
  match lib.gobEncode p with
  | .error err => .error err
  | .ok bytes => .ok bytes

/-- Go `NewPayloadFromBytes`: the gob decoding of the bytes. -/
def NewPayloadFromBytes (lib : Lib) (data : Bytes) : Except String Payload :=
  match lib.gobDecode data with
  | .error err => .error err
  | .ok p => .ok p

/-! ## matching (matcher.go) -/

/-- An error returned by the cache: the key is not there, or the backend failed. The code
only ever tests such an error against nil. -/
inductive CacheError where
  | notFound
  | backend (msg : String)

/-- The methods of the `cache.Cache` interface the matcher calls, over a cache state `σ`:
`Get` reads a key, `Set` writes one and gives back its error (if any) and the new state. -/
structure CacheOps (σ : Type) where
  Get : σ → String → Except CacheError Bytes
  Set : σ → String → Bytes → Option String × σ

/-- The type `matching.RequestMatcher`. `Webserver` is a `*bool` the code dereferences
without a nil check; it is taken to be set, as the configuration does. -/
structure RequestMatcher (σ : Type) where
  RequestCache : σ
  TemplateStore : RequestTemplateStore
  Webserver : Bool

/-- The type `matching.MatchingError`. -/
structure MatchingError where
  StatusCode : Int
  Description : String

/-- Go `GetRequestFingerprint`. -/
def GetRequestFingerprint (lib : Lib) (req : Request) (requestBody : String)
    (webserver : Bool) : String :=
  let r : RequestDetails :=
    { Path := req.URL.Path, Method := req.Method, Destination := req.Host, Scheme := "",
      Query := req.URL.RawQuery, Body := requestBody, Headers := req.Header }
  if webserver then r.HashWithoutHost lib else r.Hash lib

/-- The body `RequestMatcher.GetPayload` works with: empty for a nil body, otherwise
what `ioutil.ReadAll` returned (a read error is logged and the bytes read are kept). -/
def readBody (req : Request) : String :=
  match req.Body with
  | none => ""
  | some rd => rd.data

/-- Go `RequestMatcher.GetPayload`. -/
def RequestMatcher.GetPayload {σ : Type} (lib : Lib) (ops : CacheOps σ)
    (this : RequestMatcher σ) (req : Request) : Except MatchingError Payload :=
  let reqBody := readBody req
  let key := GetRequestFingerprint lib req reqBody this.Webserver
  match ops.Get this.RequestCache key with
  | .error _ =>
    match RequestTemplateStore.GetPayload this.TemplateStore req reqBody this.Webserver with
    | .error _ =>
      .error { StatusCode := 412,
               Description := "Could not find recorded request, please record it first!" }
    | .ok payload => .ok payload
  | .ok payloadBts =>
    match NewPayloadFromBytes lib payloadBts with
    | .error _ => .error { StatusCode := 500, Description := "Failed to decode payload" }
    | .ok payload => .ok payload

/-- Go `RequestMatcher.SavePayload`: the error returned (if any) and the matcher after
the call. -/
def RequestMatcher.SavePayload {σ : Type} (lib : Lib) (ops : CacheOps σ)
    (this : RequestMatcher σ) (payload : Payload) : Option String × RequestMatcher σ :=
  let key := if this.Webserver then payload.IdWithoutHost lib else payload.Id lib
  match payload.Encode lib with
  | .error err => (some err, this)
  | .ok payloadBytes =>
    match ops.Set this.RequestCache key payloadBytes with
    | (err, cache) => (err, { this with RequestCache := cache })

/-! ## views, and the conversions of payload.go -/

/-- Modelled from the spec: the package `views` is not among the sources.
`views.ResponseDetailsView` has the fields the JSON shape of the specification lists and
`payload.go` reads and writes. -/
structure ResponseDetailsView where
  Status : Int
  Body : String
  EncodedBody : Bool
  Headers : HeaderMap

/-- Modelled from the spec: the package `views` is not among the sources.
`views.RequestDetailsView` has the fields the JSON shape of the specification lists and
`payload.go` reads and writes. -/
structure RequestDetailsView where
  Path : String
  Method : String
  Destination : String
  Scheme : String
  Query : String
  Body : String
  Headers : HeaderMap

/-- Modelled from the spec: the package `views` is not among the sources.
`views.PayloadView` is the pair of a response view and a request view. -/
structure PayloadView where
  Response : ResponseDetailsView
  Request : RequestDetailsView

/-- The array `supportedMimeTypes`. -/
def supportedMimeTypes : List String :=
  ["text", "plain", "css", "html", "json", "xml", "js", "javascript"]

/-- The search of `strings.Contains` on character lists: `substr` starts at the head of
the text or occurs further on. -/
def containsChars : List Char → List Char → Bool
  | [], substr => substr.isEmpty
  | c :: cs, substr => substr.isPrefixOf (c :: cs) || containsChars cs substr

/-- Go `strings.Contains(s, substr)`. -/
def stringsContains (s substr : String) : Bool :=
  containsChars s.data substr.data

/-- The loop of `ConvertToResponseDetailsView` over `supportedMimeTypes`, entered with
`needsEncoding = true`: the first supported substring found in the MIME type sets it to
`false` and breaks. -/
def needsEncodingLoop (mimeType : String) : List String → Bool
  | [] => true
  | v :: vs => if stringsContains mimeType v then false else needsEncodingLoop mimeType vs

/-- The value of `needsEncoding` in `ConvertToResponseDetailsView`. -/
def ResponseDetails.needsEncoding (lib : Lib) (r : ResponseDetails) : Bool :=
  let contentEncodingValues := r.Headers.index "Content-Encoding"
  if contentEncodingValues.elems.length > 0 then
    true
  else
    let mimeType := lib.detectContentType r.Body
    needsEncodingLoop mimeType supportedMimeTypes

/-- Go `ResponseDetails.ConvertToResponseDetailsView`. -/
def ResponseDetails.ConvertToResponseDetailsView (lib : Lib) (r : ResponseDetails) :
    ResponseDetailsView :=
  let needsEncoding := r.needsEncoding lib
  let body := if needsEncoding then lib.base64Encode r.Body else r.Body
  { Status := r.Status, Body := body, Headers := r.Headers, EncodedBody := needsEncoding }

/-- Go `NewResponseDetialsFromResponseDetailsView`: the error of `DecodeString` is dropped
and the bytes it decoded are kept. -/
def NewResponseDetialsFromResponseDetailsView (lib : Lib) (data : ResponseDetailsView) :
    ResponseDetails :=
  let body := if data.EncodedBody == true then (lib.base64Decode data.Body).1 else data.Body
  { Status := data.Status, Body := body, Headers := data.Headers }

/-- Go `NewRequestDetailsFromRequestDetailsView`. -/
def NewRequestDetailsFromRequestDetailsView (data : RequestDetailsView) : RequestDetails :=
  { Path := data.Path, Method := data.Method, Destination := data.Destination,
    Scheme := data.Scheme, Query := data.Query, Body := data.Body, Headers := data.Headers }

/-- Go `RequestDetails.ConvertToRequestDetailsView`. -/
def RequestDetails.ConvertToRequestDetailsView (r : RequestDetails) : RequestDetailsView :=
  { Path := r.Path, Method := r.Method, Destination := r.Destination, Scheme := r.Scheme,
    Query := r.Query, Body := r.Body, Headers := r.Headers }

/-- Go `NewPayloadFromPayloadView`. -/
def NewPayloadFromPayloadView (lib : Lib) (data : PayloadView) : Payload :=
  { Response := NewResponseDetialsFromResponseDetailsView lib data.Response,
    Request := NewRequestDetailsFromRequestDetailsView data.Request }

/-- Go `Payload.ConvertToPayloadView`. -/
def Payload.ConvertToPayloadView (lib : Lib) (p : Payload) : PayloadView :=
  { Response := p.Response.ConvertToResponseDetailsView lib,
    Request := p.Request.ConvertToRequestDetailsView }

/-! ## matching (request_template_store.go): import and wipe -/

/-- The type `matching.RequestTemplatePayloadView`. -/
structure RequestTemplatePayloadView where
  RequestTemplate : Hoverfly.RequestTemplate
  Response : ResponseDetailsView

/-- The type `matching.RequestTemplatePayloadJson`: `Data` is a pointer to a slice, `none`
is the nil pointer. A nil slice and an empty slice behind the pointer have the same length
and range and are both the empty list. -/
structure RequestTemplatePayloadJson where
  Data : Option (List RequestTemplatePayloadView)

/-- A Go run-time panic. -/
inductive GoPanic where
  | nilPointerDereference

/-- Go `RequestTemplatePayloadView.ConvertToPayload`. -/
def RequestTemplatePayloadView.ConvertToPayload (lib : Lib)
    (this : RequestTemplatePayloadView) : RequestTemplatePayload :=
  { RequestTemplate := this.RequestTemplate,
    Response := NewResponseDetialsFromResponseDetailsView lib this.Response }

/-- The loop of `ConvertToRequestTemplateStore`: each view is converted and appended. -/
def convertLoop (lib : Lib) :
    RequestTemplateStore → List RequestTemplatePayloadView → RequestTemplateStore
  | requestTemplateStore, [] => requestTemplateStore
  | requestTemplateStore, v :: vs =>
    convertLoop lib (requestTemplateStore ++ [v.ConvertToPayload lib]) vs

/-- Go `RequestTemplatePayloadJson.ConvertToRequestTemplateStore`; dereferencing a nil
`Data` panics. -/
def RequestTemplatePayloadJson.ConvertToRequestTemplateStore (lib : Lib)
    (this : RequestTemplatePayloadJson) : Except GoPanic RequestTemplateStore :=
  match this.Data with
  | none => .error GoPanic.nilPointerDereference
  | some data => .ok (convertLoop lib [] data)

/-- The loop of `ImportPayloads`: each payload is appended to the store. -/
def importLoop : RequestTemplateStore → RequestTemplateStore → RequestTemplateStore
  | this, [] => this
  | this, pl :: pls => importLoop (this ++ [pl]) pls

/-- Go `RequestTemplateStore.ImportPayloads`: a panic, or the error returned (`none` is
nil) with the store after the call. Dereferencing a nil `Data` panics. -/
def RequestTemplateStore.ImportPayloads (lib : Lib) (this : RequestTemplateStore)
    (payloadsView : RequestTemplatePayloadJson) :
    Except GoPanic (Option String × RequestTemplateStore) :=
  match payloadsView.Data with
  | none => .error GoPanic.nilPointerDereference
  | some data =>
    if data.length > 0 then
      match payloadsView.ConvertToRequestTemplateStore lib with
      | .error e => .error e
      | .ok payloads => .ok (none, importLoop this payloads)
    else
      .ok (some "Bad request. Nothing to import!", this)

/-- Go `RequestTemplateStore.Wipe`: the store after the call. -/
def RequestTemplateStore.Wipe (_this : RequestTemplateStore) : RequestTemplateStore :=
  []

/-! ## The matching contract in the words of the specification -/

/-- The conditions the specification lists for an entry whose template body is absent:
destination (unless in webserver mode), path, query, headers and method each absent or
equal to the request's value. -/
def specMatches (entry : RequestTemplatePayload) (req : Request) (webserver : Bool) : Prop :=
  (webserver = true ∨ entry.RequestTemplate.Destination = none
      ∨ entry.RequestTemplate.Destination = some req.Host)
  ∧ (entry.RequestTemplate.Path = none ∨ entry.RequestTemplate.Path = some req.URL.Path)
  ∧ (entry.RequestTemplate.Query = none
      ∨ entry.RequestTemplate.Query = some req.URL.RawQuery)
  ∧ headerMatch entry.RequestTemplate.Headers req.Header = true
  ∧ (entry.RequestTemplate.Method = none ∨ entry.RequestTemplate.Method = some req.Method)

/-! ## Sample values -/

/-- A template with every field absent and no headers. -/
def wildcardTemplate : RequestTemplate :=
  { Path := none, Method := none, Destination := none, Scheme := none, Query := none,
    Body := none, Headers := HeaderMap.empty }

/-- A template with only `path` set to `/ping` and `method` set to `GET`. -/
def pingTemplate : RequestTemplate :=
  { wildcardTemplate with Path := some "/ping", Method := some "GET" }

/-- A template with only `body` set. -/
def bodyOnlyTemplate (b : String) : RequestTemplate :=
  { wildcardTemplate with Body := some b }

/-- A response with the given status and body and no headers. -/
def plainResponse (status : Int) (body : String) : ResponseDetails :=
  { Status := status, Body := body, Headers := HeaderMap.empty }

/-- The request `GET http://example.org/ping?a=1`, with one header and a nil body. -/
def pingRequest : Request :=
  { Method := "GET", URL := { Scheme := "http", Path := "/ping", RawPath := "", RawQuery := "a=1" },
    Host := "example.org", Header := HeaderMap.single "X-Trace" (some ["abc"]),
    Body := none }

/-- The payload `GetPayload` builds from a template entry: its response, and the zero
request. -/
def templatePayload (resp : ResponseDetails) : Payload :=
  { Response := resp, Request := RequestDetails.zero }

/-- The payload recorded for `GET /ping?a=1` on `example.org`. -/
def pingPayload : Payload :=
  { Response := plainResponse 200 "pong",
    Request := { Path := "/ping", Method := "GET", Destination := "example.org",
                 Scheme := "http", Query := "a=1", Body := "",
                 Headers := HeaderMap.single "X-Trace" (some ["abc"]) } }

/-- A stand-in for the library functions, for evaluating the definitions on concrete
inputs: the digest is the character codes of the text modulo 256 (not MD5), the minifiers
return their input, every payload encodes to the one byte `1`, and decoding gives
`pingPayload` for that byte and fails on anything else; the base64 stand-in puts `=` in
front of the text and takes the first character off again, and the sniffed content type
is `text/plain; charset=utf-8` for text of printable ASCII characters (the empty text
included) and `application/octet-stream` otherwise. -/
def sampleLib : Lib :=
  { md5Sum := fun s => s.data.map (fun c => Fin.ofNat c.toNat),
    jsonMinify := fun s => .ok s,
    xmlMinify := fun s => .ok s,
    gobEncode := fun _ => .ok [1],
    gobDecode := fun b => if b = [1] then .ok pingPayload else .error "unexpected EOF",
    base64Encode := fun s => "=" ++ s,
    base64Decode := fun s =>
      match s.data with
      | [] => ("", some "illegal base64 data")
      | _ :: cs => (String.mk cs, none),
    detectContentType := fun s =>
      if s.data.all (fun c => decide (32 ≤ c.toNat) && decide (c.toNat < 127)) then
        "text/plain; charset=utf-8"
      else "application/octet-stream" }

/-- An in-memory cache: the entries written so far, newest first. `Get` of a key never
written is not-found; `Set` always succeeds. -/
def memCache : CacheOps (List (String × Bytes)) :=
  { Get := fun c k =>
      match c.lookup k with
      | some v => .ok v
      | none => .error CacheError.notFound,
    Set := fun c k v => (none, (k, v) :: c) }

/-- A cache whose backend is down: every `Get` and every `Set` fails with an I/O error. -/
def brokenCache : CacheOps Unit :=
  { Get := fun _ _ => .error (CacheError.backend "input/output error"),
    Set := fun c _ _ => (some "input/output error", c) }

/-- The 412 error of `RequestMatcher.GetPayload`. -/
def notRecordedError : MatchingError :=
  { StatusCode := 412,
    Description := "Could not find recorded request, please record it first!" }

/-- The 500 error of `RequestMatcher.GetPayload`. -/
def decodeFailedError : MatchingError :=
  { StatusCode := 500, Description := "Failed to decode payload" }

/-- A response with the header `Content-Encoding: gzip` and a body that is not text. -/
def gzipResponse : ResponseDetails :=
  { Status := 200, Body := String.mk [Char.ofNat 31, Char.ofNat 139, Char.ofNat 8],
    Headers := HeaderMap.single "Content-Encoding" (some ["gzip"]) }

/-- A template view: the `/ping` template with a plain response of the given status. -/
def pingView (status : Int) : RequestTemplatePayloadView :=
  { RequestTemplate := pingTemplate,
    Response := { Status := status, Body := "pong", EncodedBody := false,
                  Headers := HeaderMap.empty } }

/-- The entry with the `Scheme` of its template replaced. -/
def RequestTemplatePayload.withScheme (e : RequestTemplatePayload) (scheme : Option String) :
    RequestTemplatePayload :=
  { e with RequestTemplate := { e.RequestTemplate with Scheme := scheme } }

/-- A template with only `scheme` set, to `https`. -/
def httpsTemplate : RequestTemplate :=
  { wildcardTemplate with Scheme := some "https" }

/-- The record of the import/export test: `POST http://www.my-test.com/api/bookings` with
a JSON body, answered by `201` with a `Location` header and an empty body. -/
def bookingView : PayloadView :=
  { Request := { Path := "/api/bookings", Method := "POST", Destination := "www.my-test.com",
                 Scheme := "http", Query := "", Body := "\x7b\"flightId\": \"1\"\x7d",
                 Headers := HeaderMap.single "Content-Type" (some ["application/json"]) },
    Response := { Status := 201, Body := "", EncodedBody := false,
                  Headers := HeaderMap.single "Location"
                    (some ["http://localhost/api/bookings/1"]) } }

/-- A request with path `/a` and method `BC`. -/
def collidingRequestA : RequestDetails :=
  { Path := "/a", Method := "BC", Destination := "example.org", Scheme := "http",
    Query := "", Body := "", Headers := HeaderMap.empty }

/-- A request with path `/aB` and method `C`, otherwise as `collidingRequestA`. -/
def collidingRequestB : RequestDetails :=
  { collidingRequestA with Path := "/aB", Method := "C" }

/-! ## The fingerprint input in the words of the specification -/

/-- The media types the specification canonicalizes. -/
inductive MediaKind where
  | json
  | xml

/-- The media type of the specification: decided by the first `Content-Type` value that
matches `[/+]json$` (JSON) or `[/+]xml$` (XML); `none` when no value matches. -/
def specMediaKind (r : RequestDetails) : Option MediaKind :=
  match (r.Headers.index "Content-Type").elems.find? (fun v => rxJSON v || rxXML v) with
  | none => none
  | some v => if rxJSON v then some MediaKind.json else some MediaKind.xml

/-- The result of a minifier, or the raw text when it failed. -/
def minifiedOrRaw (raw : String) : Except String String → String
  | .ok minified => minified
  | .error _ => raw

/-- The body fragment `B` of the specification: empty for an empty body, the raw body for
a media type that is neither JSON nor XML, otherwise the minified body, and the raw body
when minifying fails. -/
def specBodyFragment (lib : Lib) (r : RequestDetails) : String :=
  if r.Body = "" then ""
  else
    match specMediaKind r with
    | none => r.Body
    | some MediaKind.json => minifiedOrRaw r.Body (lib.jsonMinify r.Body)
    | some MediaKind.xml => minifiedOrRaw r.Body (lib.xmlMinify r.Body)

/-- The minifier the code runs for a media type of the specification. -/
def minifierOf (lib : Lib) : MediaKind → String → Except String String
  | MediaKind.json => lib.jsonMinify
  | MediaKind.xml => lib.xmlMinify

/-- A stand-in for a JSON minifier, on character lists: blanks, tabs, line feeds and
carriage returns outside string literals are dropped. The flags say whether the text read
so far ends inside a string literal, and whether it ends in a backslash there. -/
def stripJsonWhitespace : List Char → Bool → Bool → List Char
  | [], _, _ => []
  | c :: cs, false, _ =>
    if c.toNat = 32 ∨ c.toNat = 9 ∨ c.toNat = 10 ∨ c.toNat = 13 then
      stripJsonWhitespace cs false false
    else c :: stripJsonWhitespace cs (c.toNat == 34) false
  | c :: cs, true, true => c :: stripJsonWhitespace cs true false
  | c :: cs, true, false => c :: stripJsonWhitespace cs (c.toNat != 34) (c.toNat == 92)

/-- The stand-in library with `stripJsonWhitespace` as its JSON minifier. -/
def strippingLib : Lib :=
  { sampleLib with
    jsonMinify := fun s => .ok (String.mk (stripJsonWhitespace s.data false false)) }

/-- The booking request with the compact body `{"flightId":"1"}`. -/
def compactBooking : RequestDetails :=
  { Path := "/api/bookings", Method := "POST", Destination := "www.my-test.com",
    Scheme := "http", Query := "", Body := "\x7b\"flightId\":\"1\"\x7d",
    Headers := HeaderMap.single "Content-Type" (some ["application/json"]) }

/-- The booking request with the same document spread over three lines. -/
def indentedBooking : RequestDetails :=
  { compactBooking with Body := "\x7b\n  \"flightId\": \"1\"\n\x7d" }

/-- The `/ping` template with `body` also set. -/
def pingBodyTemplate (b : String) : RequestTemplate :=
  { pingTemplate with Body := some b }

/-- The booking request sent over `https` with a further header `X-Trace`; destination,
path, method, query, body and the `Content-Type` values are those of `compactBooking`. -/
def tracedBooking : RequestDetails :=
  { compactBooking with
    Scheme := "https",
    Headers := ⟨[("X-Trace", some ["abc"]), ("Content-Type", some ["application/json"])],
                by decide⟩ }

end Hoverfly

/-! ## Lemmas on the Go values -/

namespace Hoverfly

theorem elemsEqual_iff (a b : List String) (h : a.length = b.length) :
    elemsEqual a b = true ↔ a = b := by
  induction a generalizing b with
  | nil =>
    cases b with
    | nil => simp [elemsEqual]
    | cons y ys => simp at h
  | cons x xs ih =>
    cases b with
    | nil => simp at h
    | cons y ys =>
      have h2 : xs.length = ys.length := by simpa using h
      simp [elemsEqual, ih ys h2]

theorem DeepEqual_iff (a b : StringSlice) : DeepEqual a b = true ↔ a = b := by
  cases a with
  | none => cases b <;> simp [DeepEqual]
  | some xs =>
    cases b with
    | none => simp [DeepEqual]
    | some ys =>
      simp only [DeepEqual, Bool.and_eq_true, beq_iff_eq, Option.some.injEq]
      constructor
      · intro h
        exact (elemsEqual_iff xs ys h.1).1 h.2
      · intro h
        subst h
        exact ⟨rfl, (elemsEqual_iff xs xs rfl).2 rfl⟩

theorem lookup_of_mem (es : List (String × StringSlice)) (hnd : (es.map Prod.fst).Nodup)
    (n : String) (v : StringSlice) (hmem : (n, v) ∈ es) : es.lookup n = some v := by
  induction es with
  | nil => simp at hmem
  | cons e rest ih =>
    obtain ⟨k, w⟩ := e
    simp only [List.map_cons, List.nodup_cons] at hnd
    rcases List.mem_cons.1 hmem with h | h
    · have hk : n = k := congrArg Prod.fst h
      have hw : v = w := congrArg Prod.snd h
      subst hk
      subst hw
      simp [List.lookup]
    · have hne : n ≠ k := by
        intro hk
        subst hk
        exact hnd.1 (List.mem_map.2 ⟨(n, v), h, rfl⟩)
      have hb : (n == k) = false := by simpa using hne
      simp [List.lookup, hb, ih hnd.2 h]

theorem mem_of_lookup (es : List (String × StringSlice)) (n : String) (v : StringSlice)
    (h : es.lookup n = some v) : (n, v) ∈ es := by
  induction es with
  | nil => simp at h
  | cons e rest ih =>
    obtain ⟨k, w⟩ := e
    by_cases hk : n = k
    · subst hk
      simp [List.lookup] at h
      simp [h]
    · have hb : (n == k) = false := by simpa using hk
      simp only [List.lookup, hb] at h
      exact List.mem_cons_of_mem _ (ih h)

theorem headerMatchLoop_iff (es : List (String × StringSlice)) (r : HeaderMap) :
    headerMatchLoop es r = true ↔ ∀ e ∈ es, r.get? e.1 = some e.2 := by
  induction es with
  | nil => simp [headerMatchLoop]
  | cons e rest ih =>
    obtain ⟨k, w⟩ := e
    simp only [headerMatchLoop, List.forall_mem_cons]
    cases hget : r.get? k with
    | none => simp
    | some rv =>
      by_cases hde : DeepEqual w rv = true
      · have hw : w = rv := (DeepEqual_iff w rv).1 hde
        subst hw
        simp only [hde, if_true, ih, true_and]
      · have hw : ¬ w = rv := fun h => hde ((DeepEqual_iff w rv).2 h)
        have hw2 : ¬ rv = w := fun h => hw h.symm
        simp [hde, hw2]

theorem headerMatch_iff (t r : HeaderMap) :
    headerMatch t r = true ↔ ∀ n v, t.get? n = some v → r.get? n = some v := by
  unfold headerMatch
  rw [headerMatchLoop_iff]
  constructor
  · intro h n v hn
    exact h (n, v) (mem_of_lookup t.entries n v hn)
  · intro h e he
    exact h e.1 e.2 (lookup_of_mem t.entries t.nodup e.1 e.2 he)

theorem GetPayload_cons (entry : RequestTemplatePayload) (rest : RequestTemplateStore)
    (req : Request) (reqBody : String) (webserver : Bool) :
    RequestTemplateStore.GetPayload (entry :: rest) req reqBody webserver =
      if passesChecks entry req reqBody webserver = true then
        .ok { Response := entry.Response, Request := RequestDetails.zero }
      else RequestTemplateStore.GetPayload rest req reqBody webserver := by
  unfold passesChecks
  rw [RequestTemplateStore.GetPayload]
  cases setAndEq entry.RequestTemplate.Body reqBody <;>
  cases webserver <;>
  cases setAndNe entry.RequestTemplate.Destination req.Host <;>
  cases setAndNe entry.RequestTemplate.Path req.URL.Path <;>
  cases setAndNe entry.RequestTemplate.Query req.URL.RawQuery <;>
  cases headerMatch entry.RequestTemplate.Headers req.Header <;>
  cases setAndNe entry.RequestTemplate.Method req.Method <;> simp

theorem GetPayload_none_pass (store : RequestTemplateStore) (req : Request)
    (reqBody : String) (webserver : Bool)
    (h : ∀ e ∈ store, passesChecks e req reqBody webserver = false) :
    RequestTemplateStore.GetPayload store req reqBody webserver = .error "No match found" := by
  induction store with
  | nil => rfl
  | cons e rest ih =>
    rw [GetPayload_cons]
    have he := h e (List.mem_cons_self _ _)
    simp only [he, Bool.false_eq_true, if_false]
    exact ih (fun x hx => h x (List.mem_cons_of_mem _ hx))

theorem GetPayload_append_pass (front rest : RequestTemplateStore)
    (entry : RequestTemplatePayload) (req : Request) (reqBody : String) (webserver : Bool)
    (hfront : ∀ e ∈ front, passesChecks e req reqBody webserver = false)
    (hentry : passesChecks entry req reqBody webserver = true) :
    RequestTemplateStore.GetPayload (front ++ entry :: rest) req reqBody webserver =
      .ok { Response := entry.Response, Request := RequestDetails.zero } := by
  induction front with
  | nil => simp [GetPayload_cons, hentry]
  | cons e more ih =>
    rw [List.cons_append, GetPayload_cons]
    have he := hfront e (List.mem_cons_self _ _)
    simp only [he, Bool.false_eq_true, if_false]
    exact ih (fun x hx => hfront x (List.mem_cons_of_mem _ hx))

end Hoverfly

/-! ## The template store -/

namespace Hoverfly

theorem GetPayload_ok_iff (store : RequestTemplateStore) (req : Request) (reqBody : String)
    (webserver : Bool) :
    (∃ p, RequestTemplateStore.GetPayload store req reqBody webserver = .ok p) ↔
      ∃ e ∈ store, passesChecks e req reqBody webserver = true := by
  induction store with
  | nil => simp [RequestTemplateStore.GetPayload]
  | cons e rest ih =>
    rw [GetPayload_cons]
    by_cases he : passesChecks e req reqBody webserver = true
    · simp [he]
    · have hf : passesChecks e req reqBody webserver = false := by simpa using he
      simp only [hf, Bool.false_eq_true, if_false, ih, List.exists_mem_cons_iff, false_or]

theorem GetPayload_error_iff (store : RequestTemplateStore) (req : Request)
    (reqBody : String) (webserver : Bool) :
    RequestTemplateStore.GetPayload store req reqBody webserver = .error "No match found" ↔
      ¬ ∃ e ∈ store, passesChecks e req reqBody webserver = true := by
  induction store with
  | nil => simp [RequestTemplateStore.GetPayload]
  | cons e rest ih =>
    rw [GetPayload_cons]
    by_cases he : passesChecks e req reqBody webserver = true
    · simp [he]
    · have hf : passesChecks e req reqBody webserver = false := by simpa using he
      simp only [hf, Bool.false_eq_true, if_false, ih, List.exists_mem_cons_iff, false_or]

theorem setAndNe_eq_false (p : Option String) (s : String) :
    setAndNe p s = false ↔ (p = none ∨ p = some s) := by
  cases p with
  | none => simp [setAndNe]
  | some v => simp [setAndNe]

theorem passesChecks_iff (entry : RequestTemplatePayload) (req : Request) (reqBody : String)
    (webserver : Bool) :
    passesChecks entry req reqBody webserver = true ↔
      setAndEq entry.RequestTemplate.Body reqBody = false ∧ specMatches entry req webserver := by
  unfold passesChecks specMatches
  simp only [Bool.and_eq_true, Bool.not_eq_true', Bool.and_eq_false_iff, setAndNe_eq_false,
    and_assoc]
  cases webserver <;> simp

theorem GetPayload_first_passing (store : RequestTemplateStore) (req : Request)
    (reqBody : String) (webserver : Bool) (i : Nat) (ei : RequestTemplatePayload)
    (hi : store[i]? = some ei) (hpi : passesChecks ei req reqBody webserver = true)
    (hbefore : ∀ k e, k < i → store[k]? = some e →
      passesChecks e req reqBody webserver = false) :
    RequestTemplateStore.GetPayload store req reqBody webserver
      = .ok { Response := ei.Response, Request := RequestDetails.zero } := by
  induction store generalizing i with
  | nil => simp at hi
  | cons e rest ih =>
    rw [GetPayload_cons]
    cases i with
    | zero =>
      have he : e = ei := by simpa using hi
      subst he
      simp [hpi]
    | succ n =>
      have he : passesChecks e req reqBody webserver = false :=
        hbefore 0 e (Nat.succ_pos n) (by simp)
      simp only [he, Bool.false_eq_true, if_false]
      apply ih n
      · simpa using hi
      · intro k x hk hx
        exact hbefore (k + 1) x (Nat.succ_lt_succ hk) (by simpa using hx)

/-- C1: `RequestTemplateStore.GetPayload` is first-match-wins in insertion order. If the
entries at positions `i < j` both pass all of the matcher's checks for the request and no
entry before `i` does, the call returns a payload, and the payload returned carries the
response of entry `i`. -/
theorem GetPayload_first_match_wins (store : RequestTemplateStore) (req : Request)
    (reqBody : String) (webserver : Bool) (i j : Nat) (ei ej : RequestTemplatePayload)
    (_hij : i < j) (hi : store[i]? = some ei) (_hj : store[j]? = some ej)
    (hpi : passesChecks ei req reqBody webserver = true)
    (_hpj : passesChecks ej req reqBody webserver = true)
    (hbefore : ∀ k e, k < i → store[k]? = some e →
      passesChecks e req reqBody webserver = false) :
    RequestTemplateStore.GetPayload store req reqBody webserver
        = .ok { Response := ei.Response, Request := RequestDetails.zero }
      ∧ ∀ p, RequestTemplateStore.GetPayload store req reqBody webserver = .ok p →
          p.Response = ei.Response := by
  have main := GetPayload_first_passing store req reqBody webserver i ei hi hpi hbefore
  refine ⟨main, ?_⟩
  intro p hp
  rw [main] at hp
  cases hp
  rfl

/-- The theorem `GetPayload_first_match_wins` at a two-entry store whose entries both match
`GET /ping`: the first entry's response (200) is returned, not the second's (500). -/
theorem GetPayload_first_match_wins_witness :
    RequestTemplateStore.GetPayload
        [⟨pingTemplate, plainResponse 200 "pong"⟩, ⟨wildcardTemplate, plainResponse 500 "late"⟩]
        pingRequest "" false
        = .ok { Response := plainResponse 200 "pong", Request := RequestDetails.zero }
      ∧ ∀ p, RequestTemplateStore.GetPayload
          [⟨pingTemplate, plainResponse 200 "pong"⟩,
            ⟨wildcardTemplate, plainResponse 500 "late"⟩]
          pingRequest "" false = .ok p →
          p.Response = plainResponse 200 "pong" :=
  GetPayload_first_match_wins
    [⟨pingTemplate, plainResponse 200 "pong"⟩, ⟨wildcardTemplate, plainResponse 500 "late"⟩]
    pingRequest "" false 0 1
    ⟨pingTemplate, plainResponse 200 "pong"⟩ ⟨wildcardTemplate, plainResponse 500 "late"⟩
    (by decide) rfl rfl (by decide) (by decide)
    (fun k _ hk => absurd hk (Nat.not_lt_zero k))

/-- C2: what the code does where the claim expects the body check to demand equality. A
store holding a single entry whose template has only `body` set answers `No match found`
to every request whose body equals the template body (the claim expects the entry's
response), and hands out the entry's response to a request with another body, here
template body `abc` against request body `xyz` (the claim expects `No match found`). -/
theorem GetPayload_body_check_at_equal_and_unequal_body :
    (∀ (req : Request) (resp : ResponseDetails) (b : String) (webserver : Bool),
        RequestTemplateStore.GetPayload [⟨bodyOnlyTemplate b, resp⟩] req b webserver
          = .error "No match found")
    ∧ (∀ (req : Request) (resp : ResponseDetails) (webserver : Bool),
        RequestTemplateStore.GetPayload [⟨bodyOnlyTemplate "abc", resp⟩] req "xyz" webserver
          = .ok (templatePayload resp)) := by
  constructor
  · intro req resp b webserver
    simp [RequestTemplateStore.GetPayload, bodyOnlyTemplate, setAndEq]
  · intro req resp webserver
    have hne : ("abc" == "xyz") = false := by decide
    have hh : ∀ r, headerMatch HeaderMap.empty r = true := fun r => rfl
    simp [RequestTemplateStore.GetPayload, bodyOnlyTemplate, wildcardTemplate, setAndEq,
      setAndNe, hne, hh, templatePayload]

/-- C3: for a store whose templates all have `body` absent, `GetPayload` returns a payload
iff some entry satisfies the destination (skipped in webserver mode), path, query, header
and method conditions, and returns the error `No match found` iff no entry does. A template
with only path `/ping` and method `GET` set answers every `GET /ping` request, whatever
its host, query, headers and body. -/
theorem GetPayload_body_absent_iff (store : RequestTemplateStore) (req : Request)
    (reqBody : String) (webserver : Bool)
    (hbody : ∀ e ∈ store, e.RequestTemplate.Body = none) :
    ((∃ p, RequestTemplateStore.GetPayload store req reqBody webserver = .ok p) ↔
        ∃ e ∈ store, specMatches e req webserver)
    ∧ (RequestTemplateStore.GetPayload store req reqBody webserver = .error "No match found" ↔
        ¬ ∃ e ∈ store, specMatches e req webserver)
    ∧ (∀ (scheme host rawPath query body : String) (header : HeaderMap)
         (rd : Option ReadResult) (resp : ResponseDetails) (w : Bool),
        RequestTemplateStore.GetPayload [⟨pingTemplate, resp⟩]
          { Method := "GET",
            URL := { Scheme := scheme, Path := "/ping", RawPath := rawPath, RawQuery := query },
            Host := host, Header := header, Body := rd } body w
          = .ok (templatePayload resp)) := by
  have key : (∃ e ∈ store, passesChecks e req reqBody webserver = true) ↔
      ∃ e ∈ store, specMatches e req webserver := by
    constructor
    · rintro ⟨e, he, hp⟩
      exact ⟨e, he, ((passesChecks_iff e req reqBody webserver).1 hp).2⟩
    · rintro ⟨e, he, hs⟩
      refine ⟨e, he, (passesChecks_iff e req reqBody webserver).2 ⟨?_, hs⟩⟩
      simp [hbody e he, setAndEq]
  refine ⟨?_, ?_, ?_⟩
  · rw [GetPayload_ok_iff, key]
  · rw [GetPayload_error_iff, key]
  · intro scheme host rawPath query body header rd resp w
    have hh : ∀ r, headerMatch HeaderMap.empty r = true := fun r => rfl
    simp [RequestTemplateStore.GetPayload, pingTemplate, wildcardTemplate, setAndEq,
      setAndNe, hh, templatePayload]

/-- The theorem `GetPayload_body_absent_iff` at the store holding the `/ping` template
and the request `GET /ping?a=1` to `example.org`. -/
theorem GetPayload_body_absent_iff_witness :
    ((∃ p, RequestTemplateStore.GetPayload [⟨pingTemplate, plainResponse 200 "pong"⟩]
          pingRequest "" false = .ok p) ↔
        ∃ e ∈ [(⟨pingTemplate, plainResponse 200 "pong"⟩ : RequestTemplatePayload)],
          specMatches e pingRequest false)
    ∧ (RequestTemplateStore.GetPayload [⟨pingTemplate, plainResponse 200 "pong"⟩]
          pingRequest "" false = .error "No match found" ↔
        ¬ ∃ e ∈ [(⟨pingTemplate, plainResponse 200 "pong"⟩ : RequestTemplatePayload)],
          specMatches e pingRequest false)
    ∧ (∀ (scheme host rawPath query body : String) (header : HeaderMap)
         (rd : Option ReadResult) (resp : ResponseDetails) (w : Bool),
        RequestTemplateStore.GetPayload [⟨pingTemplate, resp⟩]
          { Method := "GET",
            URL := { Scheme := scheme, Path := "/ping", RawPath := rawPath, RawQuery := query },
            Host := host, Header := header, Body := rd } body w
          = .ok (templatePayload resp)) :=
  GetPayload_body_absent_iff [⟨pingTemplate, plainResponse 200 "pong"⟩] pingRequest "" false
    (by intro e he; rw [List.mem_singleton.1 he]; rfl)

/-- C4: `headerMatch(tmplHeaders, reqHeaders)` is true iff every header name of the
template is a key of the request headers (exact string) whose value is the template's
value, compared as `reflect.DeepEqual` compares two `[]string` (for two non-nil lists:
the same elements in the same order). Request headers the template does not name do not
affect the result. A template requiring `X-Trace: ["abc"]` matches a request carrying
`X-Trace: ["abc"]`, and does not match one carrying `["abc", "def"]` or no `X-Trace`; a
template without headers matches every request. -/
theorem headerMatch_spec :
    (∀ t r : HeaderMap,
        headerMatch t r = true ↔ ∀ n v, t.get? n = some v → r.get? n = some v)
    ∧ (∀ xs ys : List String, DeepEqual (some xs) (some ys) = true ↔ xs = ys)
    ∧ (∀ t r r2 : HeaderMap, (∀ n v, t.get? n = some v → r.get? n = r2.get? n) →
        headerMatch t r = headerMatch t r2)
    ∧ (∀ r : HeaderMap, r.get? "X-Trace" = some (some ["abc"]) →
        headerMatch (HeaderMap.single "X-Trace" (some ["abc"])) r = true)
    ∧ (∀ r : HeaderMap, r.get? "X-Trace" = some (some ["abc", "def"]) →
        headerMatch (HeaderMap.single "X-Trace" (some ["abc"])) r = false)
    ∧ (∀ r : HeaderMap, r.get? "X-Trace" = none →
        headerMatch (HeaderMap.single "X-Trace" (some ["abc"])) r = false)
    ∧ (∀ r : HeaderMap, headerMatch HeaderMap.empty r = true) := by
  refine ⟨headerMatch_iff, ?_, ?_, ?_, ?_, ?_, fun r => rfl⟩
  · intro xs ys
    rw [DeepEqual_iff]
    simp
  · intro t r r2 h
    have h3 : (∀ n v, t.get? n = some v → r.get? n = some v) ↔
        (∀ n v, t.get? n = some v → r2.get? n = some v) := by
      constructor
      · intro hr n v hn
        rw [← h n v hn]
        exact hr n v hn
      · intro hr n v hn
        rw [h n v hn]
        exact hr n v hn
    rw [Bool.eq_iff_iff, headerMatch_iff, headerMatch_iff]
    exact h3
  · intro r hr
    simp [headerMatch, HeaderMap.single, headerMatchLoop, hr, DeepEqual, elemsEqual]
  · intro r hr
    simp [headerMatch, HeaderMap.single, headerMatchLoop, hr, DeepEqual, elemsEqual]
  · intro r hr
    simp [headerMatch, HeaderMap.single, headerMatchLoop, hr]

end Hoverfly

/-! ## The request matcher -/

namespace Hoverfly

theorem RequestMatcher_GetPayload_of_get_error {σ : Type} (lib : Lib) (ops : CacheOps σ)
    (this : RequestMatcher σ) (req : Request) (e : CacheError)
    (hget : ops.Get this.RequestCache
      (GetRequestFingerprint lib req (readBody req) this.Webserver) = .error e) :
    RequestMatcher.GetPayload lib ops this req =
      match RequestTemplateStore.GetPayload this.TemplateStore req (readBody req)
          this.Webserver with
      | .error _ => .error notRecordedError
      | .ok payload => .ok payload := by
  simp only [RequestMatcher.GetPayload, hget]
  rfl

theorem RequestMatcher_GetPayload_of_get_ok {σ : Type} (lib : Lib) (ops : CacheOps σ)
    (this : RequestMatcher σ) (req : Request) (bytes : Bytes)
    (hget : ops.Get this.RequestCache
      (GetRequestFingerprint lib req (readBody req) this.Webserver) = .ok bytes) :
    RequestMatcher.GetPayload lib ops this req =
      match lib.gobDecode bytes with
      | .error _ => .error decodeFailedError
      | .ok payload => .ok payload := by
  simp only [RequestMatcher.GetPayload, hget, NewPayloadFromBytes]
  cases lib.gobDecode bytes <;> rfl

/-- C5: when the cache lookup for the request's fingerprint misses and no template of the
store passes the matcher's checks, `RequestMatcher.GetPayload` returns no payload and the
`MatchingError` with `StatusCode` 412 and `Description`
"Could not find recorded request, please record it first!". -/
theorem RequestMatcher_GetPayload_no_match {σ : Type} (lib : Lib) (ops : CacheOps σ)
    (this : RequestMatcher σ) (req : Request)
    (hmiss : ops.Get this.RequestCache
      (GetRequestFingerprint lib req (readBody req) this.Webserver)
        = .error CacheError.notFound)
    (hnone : ∀ e ∈ this.TemplateStore,
      passesChecks e req (readBody req) this.Webserver = false) :
    RequestMatcher.GetPayload lib ops this req
      = .error { StatusCode := 412,
                 Description := "Could not find recorded request, please record it first!" } := by
  rw [RequestMatcher_GetPayload_of_get_error lib ops this req _ hmiss,
    GetPayload_none_pass _ _ _ _ hnone]
  rfl

/-- The theorem `RequestMatcher_GetPayload_no_match` with an empty in-memory cache and an
empty template store. -/
theorem RequestMatcher_GetPayload_no_match_witness :
    RequestMatcher.GetPayload sampleLib memCache
        { RequestCache := [], TemplateStore := [], Webserver := false } pingRequest
      = .error { StatusCode := 412,
                 Description := "Could not find recorded request, please record it first!" } :=
  RequestMatcher_GetPayload_no_match sampleLib memCache
    { RequestCache := [], TemplateStore := [], Webserver := false } pingRequest rfl
    (fun _ h => absurd h (List.not_mem_nil _))

/-- C6: when the cache returns bytes for the request's fingerprint and the bytes fail to
decode as a `Payload`, `RequestMatcher.GetPayload` returns no payload and a `MatchingError`
with `StatusCode` 500, whatever the template store of the matcher contains. -/
theorem RequestMatcher_GetPayload_decode_failure {σ : Type} (lib : Lib) (ops : CacheOps σ)
    (this : RequestMatcher σ) (req : Request) (bytes : Bytes) (err : String)
    (hhit : ops.Get this.RequestCache
      (GetRequestFingerprint lib req (readBody req) this.Webserver) = .ok bytes)
    (hdecode : lib.gobDecode bytes = .error err) :
    RequestMatcher.GetPayload lib ops this req
        = .error { StatusCode := 500, Description := "Failed to decode payload" }
      ∧ ∀ p, RequestMatcher.GetPayload lib ops this req ≠ .ok p := by
  have main : RequestMatcher.GetPayload lib ops this req
      = .error { StatusCode := 500, Description := "Failed to decode payload" } := by
    rw [RequestMatcher_GetPayload_of_get_ok lib ops this req bytes hhit, hdecode]
    rfl
  refine ⟨main, ?_⟩
  intro p hp
  rw [main] at hp
  cases hp

/-- The theorem `RequestMatcher_GetPayload_decode_failure` with a cache holding two
undecodable bytes under the fingerprint of `GET /ping?a=1` and a template store whose
`/ping` template matches that request. -/
theorem RequestMatcher_GetPayload_decode_failure_witness :
    RequestMatcher.GetPayload sampleLib memCache
        { RequestCache :=
            [(GetRequestFingerprint sampleLib pingRequest "" false, [7, 7])],
          TemplateStore := [⟨pingTemplate, plainResponse 200 "pong"⟩],
          Webserver := false } pingRequest
        = .error { StatusCode := 500, Description := "Failed to decode payload" }
      ∧ ∀ p, RequestMatcher.GetPayload sampleLib memCache
        { RequestCache :=
            [(GetRequestFingerprint sampleLib pingRequest "" false, [7, 7])],
          TemplateStore := [⟨pingTemplate, plainResponse 200 "pong"⟩],
          Webserver := false } pingRequest ≠ .ok p :=
  RequestMatcher_GetPayload_decode_failure sampleLib memCache
    { RequestCache := [(GetRequestFingerprint sampleLib pingRequest "" false, [7, 7])],
      TemplateStore := [⟨pingTemplate, plainResponse 200 "pong"⟩],
      Webserver := false } pingRequest [7, 7] "unexpected EOF" rfl rfl

/-- C7, as the claim states it, fails on the code: with a cache whose `Get` fails with a
backend I/O error, `RequestMatcher.GetPayload` returns the response of the matching `/ping`
template, and with an empty template store it reports 412; in neither case 500. -/
theorem RequestMatcher_GetPayload_backend_failure_counterexample :
    brokenCache.Get ()
        (GetRequestFingerprint sampleLib pingRequest (readBody pingRequest) false)
      = .error (CacheError.backend "input/output error")
    ∧ RequestMatcher.GetPayload sampleLib brokenCache
        { RequestCache := (), TemplateStore := [⟨pingTemplate, plainResponse 200 "pong"⟩],
          Webserver := false } pingRequest
      = .ok (templatePayload (plainResponse 200 "pong"))
    ∧ RequestMatcher.GetPayload sampleLib brokenCache
        { RequestCache := (), TemplateStore := [], Webserver := false } pingRequest
      = .error { StatusCode := 412,
                 Description := "Could not find recorded request, please record it first!" } :=
  ⟨rfl, rfl, rfl⟩

/-- C7, amended: any error of `RequestCache.Get`, a backend I/O failure included, is
treated as a cache miss. `RequestMatcher.GetPayload` then returns what the template store
returns for the request, or the 412 `MatchingError` when no template matches; it never
reports `StatusCode` 500 in that case. -/
theorem RequestMatcher_GetPayload_get_error_is_miss {σ : Type} (lib : Lib)
    (ops : CacheOps σ) (this : RequestMatcher σ) (req : Request) (e : CacheError)
    (hget : ops.Get this.RequestCache
      (GetRequestFingerprint lib req (readBody req) this.Webserver) = .error e) :
    (RequestMatcher.GetPayload lib ops this req =
      match RequestTemplateStore.GetPayload this.TemplateStore req (readBody req)
          this.Webserver with
      | .error _ =>
        .error { StatusCode := 412,
                 Description := "Could not find recorded request, please record it first!" }
      | .ok payload => .ok payload)
    ∧ ∀ d, RequestMatcher.GetPayload lib ops this req
        ≠ .error { StatusCode := 500, Description := d } := by
  have main := RequestMatcher_GetPayload_of_get_error lib ops this req e hget
  refine ⟨main, ?_⟩
  intro d hd
  rw [main] at hd
  cases hstore : RequestTemplateStore.GetPayload this.TemplateStore req (readBody req)
      this.Webserver with
  | error msg =>
    rw [hstore] at hd
    simp only [notRecordedError, Except.error.injEq, MatchingError.mk.injEq] at hd
    exact absurd hd.1 (by decide)
  | ok payload =>
    rw [hstore] at hd
    cases hd

/-- The theorem `RequestMatcher_GetPayload_get_error_is_miss` at the cache whose backend
is down and a store holding the `/ping` template. -/
theorem RequestMatcher_GetPayload_get_error_is_miss_witness :
    (RequestMatcher.GetPayload sampleLib brokenCache
        { RequestCache := (), TemplateStore := [⟨pingTemplate, plainResponse 200 "pong"⟩],
          Webserver := false } pingRequest =
      match RequestTemplateStore.GetPayload [⟨pingTemplate, plainResponse 200 "pong"⟩]
          pingRequest (readBody pingRequest) false with
      | .error _ =>
        .error { StatusCode := 412,
                 Description := "Could not find recorded request, please record it first!" }
      | .ok payload => .ok payload)
    ∧ ∀ d, RequestMatcher.GetPayload sampleLib brokenCache
        { RequestCache := (), TemplateStore := [⟨pingTemplate, plainResponse 200 "pong"⟩],
          Webserver := false } pingRequest
        ≠ .error { StatusCode := 500, Description := d } :=
  RequestMatcher_GetPayload_get_error_is_miss sampleLib brokenCache
    { RequestCache := (), TemplateStore := [⟨pingTemplate, plainResponse 200 "pong"⟩],
      Webserver := false } pingRequest (CacheError.backend "input/output error") rfl

end Hoverfly

/-! ## The request fingerprint -/

namespace Hoverfly

theorem concatenate_congr (lib : Lib) (r1 r2 : RequestDetails) (withHost : Bool)
    (hD : withHost = true → r1.Destination = r2.Destination)
    (hP : r1.Path = r2.Path) (hM : r1.Method = r2.Method) (hQ : r1.Query = r2.Query)
    (hB : r1.Body = r2.Body)
    (hCT : r1.Headers.index "Content-Type" = r2.Headers.index "Content-Type") :
    r1.concatenate lib withHost = r2.concatenate lib withHost := by
  simp only [RequestDetails.concatenate, RequestDetails.getContentType,
    RequestDetails.minifyBody, hP, hM, hQ, hB, hCT]
  cases withHost with
  | false => rfl
  | true => rw [hD rfl]

/-- C9: fingerprint host-independence. Changing only `Destination` of a `RequestDetails`
leaves `HashWithoutHost` unchanged, and changing only `Host` of a request leaves
`GetRequestFingerprint` with `webserver = true` unchanged. -/
theorem HashWithoutHost_host_independent :
    (∀ (lib : Lib) (r : RequestDetails) (d : String),
        ({ r with Destination := d } : RequestDetails).HashWithoutHost lib
          = r.HashWithoutHost lib)
    ∧ (∀ (lib : Lib) (req : Request) (requestBody host : String),
        GetRequestFingerprint lib { req with Host := host } requestBody true
          = GetRequestFingerprint lib req requestBody true) := by
  constructor
  · intro lib r d
    unfold RequestDetails.HashWithoutHost
    rw [concatenate_congr lib { r with Destination := d } r false (by simp) rfl rfl rfl rfl rfl]
  · intro lib req requestBody host
    simp only [GetRequestFingerprint, if_true, RequestDetails.HashWithoutHost]
    exact congrArg (fun t => fmtHex (lib.md5Sum t))
      (concatenate_congr lib _ _ false (by simp) rfl rfl rfl rfl rfl)

theorem GetRequestFingerprint_eq_id (lib : Lib) (p : Payload) (req : Request)
    (requestBody : String) (webserver : Bool)
    (hpath : req.URL.Path = p.Request.Path) (hmethod : req.Method = p.Request.Method)
    (hhost : req.Host = p.Request.Destination) (hquery : req.URL.RawQuery = p.Request.Query)
    (hbody : requestBody = p.Request.Body) (hheaders : req.Header = p.Request.Headers) :
    GetRequestFingerprint lib req requestBody webserver
      = if webserver then p.IdWithoutHost lib else p.Id lib := by
  cases webserver with
  | true =>
    simp only [GetRequestFingerprint, if_true, Payload.IdWithoutHost,
      RequestDetails.HashWithoutHost]
    exact congrArg (fun t => fmtHex (lib.md5Sum t))
      (concatenate_congr lib _ _ false (by simp) hpath hmethod hquery hbody
        (by rw [hheaders]))
  | false =>
    simp only [GetRequestFingerprint, Bool.false_eq_true, if_false, Payload.Id,
      RequestDetails.Hash]
    exact congrArg (fun t => fmtHex (lib.md5Sum t))
      (concatenate_congr lib _ _ true (fun _ => hhost) hpath hmethod hquery hbody
        (by rw [hheaders]))

/-- C8: capture-then-replay. Over a cache where `Get(k)` after `Set(k, v)` returns `v`, and
assuming decoding undoes the encoding of `p`, after `SavePayload(p)` succeeds `GetPayload`
of a request whose URL path, method, host, raw query, body and headers equal those of
`p.Request` returns `p` with no error, for either value of the webserver flag and whatever
the template store contains; the key `SavePayload` writes under is the key
`GetRequestFingerprint` computes for that request. -/
theorem RequestMatcher_capture_then_replay {σ : Type} (lib : Lib) (ops : CacheOps σ)
    (this : RequestMatcher σ) (p : Payload) (req : Request)
    (hcache : ∀ c k v c2, ops.Set c k v = (none, c2) → ops.Get c2 k = .ok v)
    (hcodec : ∀ b, lib.gobEncode p = .ok b → lib.gobDecode b = .ok p)
    (hsaved : (RequestMatcher.SavePayload lib ops this p).1 = none)
    (hpath : req.URL.Path = p.Request.Path) (hmethod : req.Method = p.Request.Method)
    (hhost : req.Host = p.Request.Destination) (hquery : req.URL.RawQuery = p.Request.Query)
    (hbody : readBody req = p.Request.Body) (hheaders : req.Header = p.Request.Headers) :
    RequestMatcher.GetPayload lib ops (RequestMatcher.SavePayload lib ops this p).2 req
        = .ok p
      ∧ (if this.Webserver then p.IdWithoutHost lib else p.Id lib)
        = GetRequestFingerprint lib req (readBody req) this.Webserver := by
  have hkey := GetRequestFingerprint_eq_id lib p req (readBody req) this.Webserver
    hpath hmethod hhost hquery hbody hheaders
  refine ⟨?_, hkey.symm⟩
  cases henc : lib.gobEncode p with
  | error err =>
    simp [RequestMatcher.SavePayload, Payload.Encode, henc] at hsaved
  | ok bytes =>
    cases hset : ops.Set this.RequestCache
        (if this.Webserver then p.IdWithoutHost lib else p.Id lib) bytes with
    | mk err cache =>
      have hsave : RequestMatcher.SavePayload lib ops this p
          = (err, { this with RequestCache := cache }) := by
        simp only [RequestMatcher.SavePayload, Payload.Encode, henc, hset]
      rw [hsave] at hsaved
      simp only at hsaved
      subst hsaved
      rw [hsave]
      have hget := hcache _ _ _ _ hset
      rw [← hkey] at hget
      rw [RequestMatcher_GetPayload_of_get_ok lib ops _ req bytes hget, hcodec bytes henc]

/-- The theorem `RequestMatcher_capture_then_replay` at the in-memory cache: `pingPayload`
is saved into an empty cache and replayed by the request `GET /ping?a=1`, although the
template store holds a template matching that request with another response. -/
theorem RequestMatcher_capture_then_replay_witness :
    RequestMatcher.GetPayload sampleLib memCache
        (RequestMatcher.SavePayload sampleLib memCache
          { RequestCache := [], TemplateStore := [⟨wildcardTemplate, plainResponse 500 "no"⟩],
            Webserver := false } pingPayload).2 pingRequest
        = .ok pingPayload
      ∧ (if false then pingPayload.IdWithoutHost sampleLib else pingPayload.Id sampleLib)
        = GetRequestFingerprint sampleLib pingRequest (readBody pingRequest) false :=
  RequestMatcher_capture_then_replay sampleLib memCache
    { RequestCache := [], TemplateStore := [⟨wildcardTemplate, plainResponse 500 "no"⟩],
      Webserver := false } pingPayload pingRequest
    (by
      intro c k v c2 h
      have hc : c2 = (k, v) :: c := by
        simp only [memCache, Prod.mk.injEq, true_and] at h
        exact h.symm
      subst hc
      simp [memCache, List.lookup])
    (by
      intro b hb
      have hb1 : b = [1] := by
        simp only [sampleLib, Except.ok.injEq] at hb
        exact hb.symm
      subst hb1
      rfl)
    rfl rfl rfl rfl rfl rfl rfl

theorem length_pos_iff_ne_empty (s : String) : 0 < s.length ↔ s ≠ "" := by
  cases s with
  | mk d => cases d <;> simp [String.length, String.ext_iff]

theorem getContentTypeLoop_eq (vs : List String) :
    getContentTypeLoop vs =
      match vs.find? (fun v => rxJSON v || rxXML v) with
      | none => otherType
      | some v => if rxJSON v then contentTypeJSON else contentTypeXML := by
  induction vs with
  | nil => rfl
  | cons v rest ih =>
    cases hj : rxJSON v with
    | true => simp [getContentTypeLoop, List.find?, hj]
    | false =>
      cases hx : rxXML v with
      | true => simp [getContentTypeLoop, List.find?, hj, hx]
      | false => simp [getContentTypeLoop, List.find?, hj, hx, ih]

theorem minifyBody_json (lib : Lib) (r : RequestDetails) :
    r.minifyBody lib contentTypeJSON = minifiedOrRaw r.Body (lib.jsonMinify r.Body) := by
  have h1 : rxXML contentTypeJSON = false := by decide
  have h2 : rxJSON contentTypeJSON = true := by decide
  simp only [RequestDetails.minifyBody, minifiersString, h1, h2, Bool.false_eq_true, if_false,
    if_true]
  cases lib.jsonMinify r.Body <;> rfl

theorem minifyBody_xml (lib : Lib) (r : RequestDetails) :
    r.minifyBody lib contentTypeXML = minifiedOrRaw r.Body (lib.xmlMinify r.Body) := by
  have h1 : rxXML contentTypeXML = true := by decide
  simp only [RequestDetails.minifyBody, minifiersString, h1, if_true]
  cases lib.xmlMinify r.Body <;> rfl

theorem concatenate_eq_spec (lib : Lib) (r : RequestDetails) (withHost : Bool) :
    r.concatenate lib withHost
      = (if withHost then r.Destination else "") ++ r.Path ++ r.Method ++ r.Query
          ++ specBodyFragment lib r := by
  have hbuf : (if withHost = true then "" ++ r.Destination else "")
      = (if withHost = true then r.Destination else "") := by
    cases withHost <;> simp
  simp only [RequestDetails.concatenate, hbuf, specBodyFragment, specMediaKind,
    RequestDetails.getContentType, getContentTypeLoop_eq]
  by_cases hb : r.Body = ""
  · simp [hb]
  · have hpos : r.Body.length > 0 := (length_pos_iff_ne_empty r.Body).2 hb
    simp only [hpos, hb, if_true, if_false]
    cases hfind : (r.Headers.index "Content-Type").elems.find? (fun v => rxJSON v || rxXML v) with
    | none =>
      have h1 : (otherType == contentTypeJSON || otherType == contentTypeXML) = false := by
        decide
      simp only [h1, Bool.false_eq_true, if_false]
    | some v =>
      cases hj : rxJSON v with
      | true =>
        have h1 : (contentTypeJSON == contentTypeJSON || contentTypeJSON == contentTypeXML)
            = true := by decide
        simp only [hj, if_true, h1, minifyBody_json]
      | false =>
        have h1 : (contentTypeXML == contentTypeJSON || contentTypeXML == contentTypeXML)
            = true := by decide
        simp only [hj, Bool.false_eq_true, if_false, if_true, h1, minifyBody_xml]

theorem hexDigit_lowercase : ∀ n, n < 16 → hexDigit n ∈ "0123456789abcdef".data := by
  decide

theorem fmtHex_lowercase (bs : Bytes) :
    (fmtHex bs).length = 2 * bs.length
      ∧ ∀ c ∈ (fmtHex bs).data, c ∈ "0123456789abcdef".data := by
  induction bs with
  | nil => simp [fmtHex]
  | cons b rest ih =>
    constructor
    · simp only [fmtHex, String.length_append, ih.1, List.length_cons]
      simp only [String.length, List.length_cons, List.length_nil]
      omega
    · intro c hc
      simp only [fmtHex, String.data_append, List.mem_append, List.mem_cons,
        List.mem_nil_iff, or_false] at hc
      rcases hc with (h | h) | h
      · rw [h]
        exact hexDigit_lowercase _ (Nat.div_lt_of_lt_mul (by have := b.isLt; omega))
      · rw [h]
        exact hexDigit_lowercase _ (Nat.mod_lt _ (by decide))
      · exact ih.2 c h

/-- C10: `Hash` is the lowercase-hex digest of `Destination ++ Path ++ Method ++ Query ++ B`
and `HashWithoutHost` that of `Path ++ Method ++ Query ++ B`, with no separators. `B` is
empty when `Body` is empty, is the raw `Body` when no value of the `Content-Type` header
matches `[/+]json$` or `[/+]xml$`, and is otherwise the minified `Body` (the raw `Body` if
minifying fails). The digest is written as two characters of `0123456789abcdef` per byte. -/
theorem Hash_is_digest_of_concatenation (lib : Lib) (r : RequestDetails) :
    r.Hash lib
        = fmtHex (lib.md5Sum
            (r.Destination ++ r.Path ++ r.Method ++ r.Query ++ specBodyFragment lib r))
    ∧ r.HashWithoutHost lib
        = fmtHex (lib.md5Sum (r.Path ++ r.Method ++ r.Query ++ specBodyFragment lib r))
    ∧ (r.Body = "" → specBodyFragment lib r = "")
    ∧ (r.Body ≠ "" →
        (∀ v ∈ (r.Headers.index "Content-Type").elems, rxJSON v = false ∧ rxXML v = false) →
        specBodyFragment lib r = r.Body)
    ∧ (r.Body ≠ "" →
        (∃ v ∈ (r.Headers.index "Content-Type").elems, rxJSON v = true ∨ rxXML v = true) →
        specBodyFragment lib r = minifiedOrRaw r.Body (lib.jsonMinify r.Body)
          ∨ specBodyFragment lib r = minifiedOrRaw r.Body (lib.xmlMinify r.Body))
    ∧ (∀ bs : Bytes, (fmtHex bs).length = 2 * bs.length
        ∧ ∀ c ∈ (fmtHex bs).data, c ∈ "0123456789abcdef".data) := by
  refine ⟨?_, ?_, ?_, ?_, ?_, fmtHex_lowercase⟩
  · simp only [RequestDetails.Hash, concatenate_eq_spec, if_true]
  · simp only [RequestDetails.HashWithoutHost, concatenate_eq_spec, Bool.false_eq_true,
      if_false, String.empty_append]
  · intro hb
    simp [specBodyFragment, hb]
  · intro hb hnone
    have hfind : (r.Headers.index "Content-Type").elems.find? (fun v => rxJSON v || rxXML v)
        = none := by
      rw [List.find?_eq_none]
      intro v hv
      simp [(hnone v hv).1, (hnone v hv).2]
    simp [specBodyFragment, hb, specMediaKind, hfind]
  · intro hb hsome
    simp only [specBodyFragment, hb, if_false]
    cases hk : specMediaKind r with
    | none =>
      exfalso
      obtain ⟨v, hv, hm⟩ := hsome
      unfold specMediaKind at hk
      cases hfind : (r.Headers.index "Content-Type").elems.find?
          (fun v => rxJSON v || rxXML v) with
      | none =>
        rw [List.find?_eq_none] at hfind
        have := hfind v hv
        rcases hm with hm | hm <;> simp [hm] at this
      | some w =>
        rw [hfind] at hk
        by_cases hj : rxJSON w = true <;> simp [hj] at hk
    | some k =>
      cases k with
      | json => exact Or.inl rfl
      | xml => exact Or.inr rfl

end Hoverfly

/-! ## Views: export and import of responses -/

namespace Hoverfly

theorem containsChars_iff (s substr : List Char) :
    containsChars s substr = true ↔ substr <:+: s := by
  induction s with
  | nil =>
    simp [containsChars, List.isEmpty_iff]
  | cons c cs ih =>
    simp only [containsChars, Bool.or_eq_true, ih, List.isPrefixOf_iff_prefix]
    rw [List.infix_cons_iff]

theorem needsEncodingLoop_iff (mimeType : String) (vs : List String) :
    needsEncodingLoop mimeType vs = true ↔ ∀ v ∈ vs, stringsContains mimeType v = false := by
  induction vs with
  | nil => simp [needsEncodingLoop]
  | cons v rest ih =>
    cases hv : stringsContains mimeType v <;> simp [needsEncodingLoop, hv, ih]

theorem needsEncoding_iff (lib : Lib) (r : ResponseDetails) :
    r.needsEncoding lib = true ↔
      (0 < (r.Headers.index "Content-Encoding").elems.length
        ∨ ∀ v ∈ supportedMimeTypes,
            stringsContains (lib.detectContentType r.Body) v = false) := by
  unfold ResponseDetails.needsEncoding
  by_cases h : (r.Headers.index "Content-Encoding").elems.length > 0
  · simp [h]
  · simp only [h, if_false, needsEncodingLoop_iff, false_or]

/-- C11: encoded-body round-trip. Given that `base64` decoding undoes `base64` encoding,
for every `ResponseDetails` `r` (any status, body and headers),
`NewResponseDetialsFromResponseDetailsView(r.ConvertToResponseDetailsView())` is `r`. -/
theorem ResponseDetails_view_round_trip (lib : Lib) (r : ResponseDetails)
    (hbase64 : ∀ s, (lib.base64Decode (lib.base64Encode s)).1 = s) :
    NewResponseDetialsFromResponseDetailsView lib (r.ConvertToResponseDetailsView lib) = r := by
  cases hn : r.needsEncoding lib with
  | true =>
    simp [NewResponseDetialsFromResponseDetailsView,
      ResponseDetails.ConvertToResponseDetailsView, hn, hbase64]
  | false =>
    simp [NewResponseDetialsFromResponseDetailsView,
      ResponseDetails.ConvertToResponseDetailsView, hn]

/-- The theorem `ResponseDetails_view_round_trip` at a gzip response, whose body is
exported base64-encoded. -/
theorem ResponseDetails_view_round_trip_witness :
    NewResponseDetialsFromResponseDetailsView sampleLib
      (gzipResponse.ConvertToResponseDetailsView sampleLib) = gzipResponse :=
  ResponseDetails_view_round_trip sampleLib gzipResponse (fun _ => rfl)

/-- C12: `ConvertToResponseDetailsView` sets `EncodedBody` to true and `Body` to the
base64 encoding of `r.Body` iff `r` has a `Content-Encoding` header (the header has at
least one value) or the MIME type detected from `r.Body` contains none of the substrings
`text, plain, css, html, json, xml, js, javascript`; otherwise `EncodedBody` is false and
`Body` is `r.Body` unchanged. `Status` and `Headers` are copied in both cases. -/
theorem ConvertToResponseDetailsView_encoding (lib : Lib) (r : ResponseDetails) :
    ((r.ConvertToResponseDetailsView lib).EncodedBody = true ↔
        (0 < (r.Headers.index "Content-Encoding").elems.length
          ∨ ∀ v ∈ ["text", "plain", "css", "html", "json", "xml", "js", "javascript"],
              stringsContains (lib.detectContentType r.Body) v = false))
    ∧ (r.ConvertToResponseDetailsView lib).Body
        = (if (r.ConvertToResponseDetailsView lib).EncodedBody = true
            then lib.base64Encode r.Body else r.Body)
    ∧ (r.ConvertToResponseDetailsView lib).Status = r.Status
    ∧ (r.ConvertToResponseDetailsView lib).Headers = r.Headers
    ∧ (∀ s substr : String, stringsContains s substr = true ↔ substr.data <:+: s.data) := by
  refine ⟨?_, rfl, rfl, rfl, ?_⟩
  · exact needsEncoding_iff lib r
  · intro s substr
    exact containsChars_iff s.data substr.data

end Hoverfly

/-! ## Import and wipe of the template store -/

namespace Hoverfly

theorem convertLoop_eq (lib : Lib) (acc : RequestTemplateStore)
    (vs : List RequestTemplatePayloadView) :
    convertLoop lib acc vs = acc ++ vs.map (fun v => v.ConvertToPayload lib) := by
  induction vs generalizing acc with
  | nil => simp [convertLoop]
  | cons v rest ih => simp [convertLoop, ih]

theorem importLoop_eq (this pls : RequestTemplateStore) : importLoop this pls = this ++ pls := by
  induction pls generalizing this with
  | nil => simp [importLoop]
  | cons pl rest ih => simp [importLoop, ih]

theorem ImportPayloads_some (lib : Lib) (this : RequestTemplateStore)
    (vs : List RequestTemplatePayloadView) :
    RequestTemplateStore.ImportPayloads lib this { Data := some vs } =
      if vs.length > 0 then
        .ok (none, this ++ vs.map (fun v => v.ConvertToPayload lib))
      else .ok (some "Bad request. Nothing to import!", this) := by
  simp only [RequestTemplateStore.ImportPayloads,
    RequestTemplatePayloadJson.ConvertToRequestTemplateStore, convertLoop_eq, importLoop_eq,
    List.nil_append]

theorem GetPayload_append_of_ok (front back : RequestTemplateStore) (req : Request)
    (reqBody : String) (webserver : Bool) (p : Payload)
    (h : RequestTemplateStore.GetPayload front req reqBody webserver = .ok p) :
    RequestTemplateStore.GetPayload (front ++ back) req reqBody webserver = .ok p := by
  induction front with
  | nil => simp [RequestTemplateStore.GetPayload] at h
  | cons e rest ih =>
    rw [List.cons_append, GetPayload_cons]
    rw [GetPayload_cons] at h
    by_cases he : passesChecks e req reqBody webserver = true
    · simpa [he] using h
    · simp only [he, if_false] at h
      simp only [he, if_false]
      exact ih h

/-- C13: for every template store `s`, `ImportPayloads` called with an empty data list
returns the error "Bad request. Nothing to import!" and leaves `s` unchanged; called with
a non-empty data list it returns no error. -/
theorem ImportPayloads_empty_and_nonempty (lib : Lib) (s : RequestTemplateStore) :
    RequestTemplateStore.ImportPayloads lib s { Data := some [] }
        = .ok (some "Bad request. Nothing to import!", s)
    ∧ ∀ (v : RequestTemplatePayloadView) (vs : List RequestTemplatePayloadView),
        ∃ s2, RequestTemplateStore.ImportPayloads lib s { Data := some (v :: vs) }
          = .ok (none, s2) := by
  constructor
  · rw [ImportPayloads_some]
    rfl
  · intro v vs
    refine ⟨s ++ (v :: vs).map (fun x => x.ConvertToPayload lib), ?_⟩
    rw [ImportPayloads_some]
    simp

/-- C14: import appends. For every store `s` and non-empty list of template views `vs`,
`ImportPayloads` returns no error and the store after it is `s` followed by the converted
entries of `vs` in the order given: its length is `len(s) + len(vs)`, the entries of `s`
keep their positions, and a request that `s` answers gets the same answer afterwards. -/
theorem ImportPayloads_appends (lib : Lib) (s : RequestTemplateStore)
    (vs : List RequestTemplatePayloadView) (hne : vs ≠ []) :
    RequestTemplateStore.ImportPayloads lib s { Data := some vs }
        = .ok (none, s ++ vs.map (fun v => v.ConvertToPayload lib))
    ∧ (s ++ vs.map (fun v => v.ConvertToPayload lib)).length = s.length + vs.length
    ∧ (∀ (i : Nat) (e : RequestTemplatePayload), s[i]? = some e →
        (s ++ vs.map (fun v => v.ConvertToPayload lib))[i]? = some e)
    ∧ (∀ (i : Nat) (v : RequestTemplatePayloadView), vs[i]? = some v →
        (s ++ vs.map (fun v => v.ConvertToPayload lib))[s.length + i]?
          = some (v.ConvertToPayload lib))
    ∧ (∀ (req : Request) (reqBody : String) (webserver : Bool) (p : Payload),
        RequestTemplateStore.GetPayload s req reqBody webserver = .ok p →
        RequestTemplateStore.GetPayload (s ++ vs.map (fun v => v.ConvertToPayload lib))
          req reqBody webserver = .ok p) := by
  refine ⟨?_, ?_, ?_, ?_, ?_⟩
  · rw [ImportPayloads_some]
    have hlen : vs.length > 0 := List.length_pos.2 hne
    simp [hlen]
  · simp
  · intro i e hi
    have hlt : i < s.length := by
      rcases Nat.lt_or_ge i s.length with h | h
      · exact h
      · rw [List.getElem?_eq_none h] at hi
        cases hi
    rw [List.getElem?_append_left hlt]
    exact hi
  · intro i v hi
    rw [List.getElem?_append_right (Nat.le_add_right _ _)]
    simp [hi]
  · intro req reqBody webserver p h
    exact GetPayload_append_of_ok s _ req reqBody webserver p h

/-- The theorem `ImportPayloads_appends` at a store holding one template, into which two
template views are imported. -/
theorem ImportPayloads_appends_witness :
    RequestTemplateStore.ImportPayloads sampleLib [⟨wildcardTemplate, plainResponse 204 ""⟩]
        { Data := some [pingView 200, pingView 201] }
      = .ok (none, [⟨wildcardTemplate, plainResponse 204 ""⟩, ⟨pingTemplate, plainResponse 200 "pong"⟩,
          ⟨pingTemplate, plainResponse 201 "pong"⟩]) :=
  (ImportPayloads_appends sampleLib [⟨wildcardTemplate, plainResponse 204 ""⟩]
    [pingView 200, pingView 201] (by simp)).1

/-- C20: wipe empties the template store. After `Wipe` the store has length 0 and
`GetPayload` returns the error `No match found` for every request, body and webserver
flag. -/
theorem Wipe_empties (s : RequestTemplateStore) :
    (RequestTemplateStore.Wipe s).length = 0
    ∧ ∀ (req : Request) (reqBody : String) (webserver : Bool),
        RequestTemplateStore.GetPayload (RequestTemplateStore.Wipe s) req reqBody webserver
          = .error "No match found" :=
  ⟨rfl, fun _ _ _ => rfl⟩

end Hoverfly

/-! ## Scheme, field boundaries, import then export -/

namespace Hoverfly

theorem GetPayload_map_withScheme (store : RequestTemplateStore)
    (sch : RequestTemplatePayload → Option String) (req : Request) (reqBody : String)
    (webserver : Bool) :
    RequestTemplateStore.GetPayload (store.map (fun e => e.withScheme (sch e))) req reqBody
        webserver
      = RequestTemplateStore.GetPayload store req reqBody webserver := by
  induction store with
  | nil => rfl
  | cons e rest ih =>
    rw [List.map_cons, GetPayload_cons, GetPayload_cons, ih]
    rfl

theorem GetPayload_request_scheme (store : RequestTemplateStore) (scheme : String)
    (req : Request) (reqBody : String) (webserver : Bool) :
    RequestTemplateStore.GetPayload store
        { req with URL := { req.URL with Scheme := scheme } } reqBody webserver
      = RequestTemplateStore.GetPayload store req reqBody webserver := by
  induction store with
  | nil => rfl
  | cons e rest ih =>
    rw [GetPayload_cons, GetPayload_cons, ih]
    rfl

/-- C17, as the claim states it, fails on the code: a store whose single template has
`Scheme` set to `https` (every other field absent) is asked for a request whose scheme is
`http`, and the entry is selected. -/
theorem GetPayload_scheme_counterexample :
    pingRequest.URL.Scheme = "http"
    ∧ httpsTemplate.Scheme = some "https"
    ∧ RequestTemplateStore.GetPayload [⟨httpsTemplate, plainResponse 200 "secure"⟩]
        pingRequest "" false
      = .ok (templatePayload (plainResponse 200 "secure")) :=
  ⟨rfl, rfl, rfl⟩

/-- C17, amended: the `Scheme` of a template is not consulted. The result of `GetPayload`
is the same whatever the `Scheme` fields of the entries are set to, and whatever the scheme
of the request is; an entry is selected on the body, destination, path, query, header and
method checks alone. -/
theorem GetPayload_ignores_scheme (store : RequestTemplateStore) (req : Request)
    (reqBody : String) (webserver : Bool) :
    (∀ sch : RequestTemplatePayload → Option String,
        RequestTemplateStore.GetPayload (store.map (fun e => e.withScheme (sch e))) req
            reqBody webserver
          = RequestTemplateStore.GetPayload store req reqBody webserver)
    ∧ (∀ scheme : String,
        RequestTemplateStore.GetPayload store
            { req with URL := { req.URL with Scheme := scheme } } reqBody webserver
          = RequestTemplateStore.GetPayload store req reqBody webserver)
    ∧ (∀ e scheme, passesChecks (e.withScheme scheme) req reqBody webserver
          = passesChecks e req reqBody webserver) :=
  ⟨fun sch => GetPayload_map_withScheme store sch req reqBody webserver,
   fun scheme => GetPayload_request_scheme store scheme req reqBody webserver,
   fun _ _ => rfl⟩

theorem specBodyFragment_congr (lib : Lib) (r1 r2 : RequestDetails)
    (hB : r1.Body = r2.Body)
    (hCT : r1.Headers.index "Content-Type" = r2.Headers.index "Content-Type") :
    specBodyFragment lib r1 = specBodyFragment lib r2 := by
  simp only [specBodyFragment, specMediaKind, hB, hCT]

/-- C18: fingerprints collide across field boundaries. Two requests with the same
`Destination`, `Body` and `Headers` whose `Path ++ Method ++ Query` concatenations coincide
have equal `Hash` and equal `HashWithoutHost`; so do, in particular, a request with path
`/a` and method `BC` and one with path `/aB` and method `C` that agree on the rest. -/
theorem Hash_collides_across_fields (lib : Lib) (r1 r2 : RequestDetails)
    (hD : r1.Destination = r2.Destination) (hB : r1.Body = r2.Body)
    (hH : r1.Headers = r2.Headers)
    (hcat : r1.Path ++ r1.Method ++ r1.Query = r2.Path ++ r2.Method ++ r2.Query) :
    r1.Hash lib = r2.Hash lib
    ∧ r1.HashWithoutHost lib = r2.HashWithoutHost lib
    ∧ (∀ (d sc q b : String) (h : HeaderMap),
        (RequestDetails.mk "/a" "BC" d sc q b h).Hash lib
            = (RequestDetails.mk "/aB" "C" d sc q b h).Hash lib
        ∧ (RequestDetails.mk "/a" "BC" d sc q b h).HashWithoutHost lib
            = (RequestDetails.mk "/aB" "C" d sc q b h).HashWithoutHost lib) := by
  have hfrag := specBodyFragment_congr lib r1 r2 hB (by rw [hH])
  have key : ∀ (a b : RequestDetails), a.Destination = b.Destination →
      specBodyFragment lib a = specBodyFragment lib b →
      a.Path ++ a.Method ++ a.Query = b.Path ++ b.Method ++ b.Query →
      a.Hash lib = b.Hash lib ∧ a.HashWithoutHost lib = b.HashWithoutHost lib := by
    intro a b hd hf hc
    constructor
    · simp only [RequestDetails.Hash, concatenate_eq_spec, if_true]
      rw [String.append_assoc a.Destination, String.append_assoc a.Destination,
        String.append_assoc b.Destination, String.append_assoc b.Destination, hd, hf, hc]
    · simp only [RequestDetails.HashWithoutHost, concatenate_eq_spec, Bool.false_eq_true,
        if_false, String.empty_append]
      rw [hf, hc]
  refine ⟨(key r1 r2 hD hfrag hcat).1, (key r1 r2 hD hfrag hcat).2, ?_⟩
  intro d sc q b h
  exact key _ _ rfl (specBodyFragment_congr lib _ _ rfl rfl)
    (by
      show "/a" ++ "BC" ++ q = "/aB" ++ "C" ++ q
      have h1 : "/a" ++ "BC" = "/aB" ++ "C" := by decide
      rw [h1])

/-- The theorem `Hash_collides_across_fields` at the request with path `/a` and method
`BC` and the request with path `/aB` and method `C`. -/
theorem Hash_collides_across_fields_witness :
    collidingRequestA.Hash sampleLib = collidingRequestB.Hash sampleLib
    ∧ collidingRequestA.HashWithoutHost sampleLib
        = collidingRequestB.HashWithoutHost sampleLib :=
  ⟨(Hash_collides_across_fields sampleLib collidingRequestA collidingRequestB rfl rfl rfl
      (by decide)).1,
   (Hash_collides_across_fields sampleLib collidingRequestA collidingRequestB rfl rfl rfl
      (by decide)).2.1⟩

/-- C19: import then export returns what was imported. For every `PayloadView` `v` whose
response has `encodedBody` false, no `Content-Encoding` header values and a body whose
detected MIME type contains one of the supported text substrings,
`NewPayloadFromPayloadView(v).ConvertToPayloadView()` equals `v` in every request field
and every response field. -/
theorem PayloadView_import_then_export (lib : Lib) (v : PayloadView)
    (hencoded : v.Response.EncodedBody = false)
    (hce : (v.Response.Headers.index "Content-Encoding").elems = [])
    (hmime : ∃ t ∈ supportedMimeTypes,
      stringsContains (lib.detectContentType v.Response.Body) t = true) :
    (NewPayloadFromPayloadView lib v).ConvertToPayloadView lib = v := by
  have hnew : NewResponseDetialsFromResponseDetailsView lib v.Response
      = { Status := v.Response.Status, Body := v.Response.Body,
          Headers := v.Response.Headers } := by
    simp [NewResponseDetialsFromResponseDetailsView, hencoded]
  have hneeds : ResponseDetails.needsEncoding lib
      { Status := v.Response.Status, Body := v.Response.Body,
        Headers := v.Response.Headers } = false := by
    cases hn : ResponseDetails.needsEncoding lib
      { Status := v.Response.Status, Body := v.Response.Body,
        Headers := v.Response.Headers } with
    | false => rfl
    | true =>
      exfalso
      rcases (needsEncoding_iff lib _).1 hn with h | h
      · simp only [hce, List.length_nil, Nat.lt_irrefl] at h
      · obtain ⟨t, ht, hc⟩ := hmime
        have := h t ht
        simp only at this
        rw [hc] at this
        cases this
  cases v with
  | mk resp req =>
    cases resp with
    | mk status body encoded headers =>
      cases req
      simp only at hencoded
      subst hencoded
      simp only [NewPayloadFromPayloadView, Payload.ConvertToPayloadView, hnew,
        ResponseDetails.ConvertToResponseDetailsView, hneeds,
        NewRequestDetailsFromRequestDetailsView, RequestDetails.ConvertToRequestDetailsView]
      rfl

/-- The theorem `PayloadView_import_then_export` at the record of the import/export test
(status 201, empty body, a `Location` header). -/
theorem PayloadView_import_then_export_witness :
    (NewPayloadFromPayloadView sampleLib bookingView).ConvertToPayloadView sampleLib
      = bookingView :=
  PayloadView_import_then_export sampleLib bookingView rfl rfl
    ⟨"text", by decide, by decide⟩

/-- C16: JSON/XML canonicalization. Two requests that agree on `Destination`, `Path`,
`Method` and `Query`, whose `Content-Type` makes both JSON (or both XML), and whose
non-empty bodies the minifier of that media type brings to the same minified text, as it
does for documents that differ only in insignificant whitespace, have equal `Hash` and
equal `HashWithoutHost`. -/
theorem Hash_canonical_bodies (lib : Lib) (r1 r2 : RequestDetails) (k : MediaKind)
    (minified : String)
    (hD : r1.Destination = r2.Destination) (hP : r1.Path = r2.Path)
    (hM : r1.Method = r2.Method) (hQ : r1.Query = r2.Query)
    (hk1 : specMediaKind r1 = some k) (hk2 : specMediaKind r2 = some k)
    (hne1 : r1.Body ≠ "") (hne2 : r2.Body ≠ "")
    (hmin1 : minifierOf lib k r1.Body = .ok minified)
    (hmin2 : minifierOf lib k r2.Body = .ok minified) :
    r1.Hash lib = r2.Hash lib ∧ r1.HashWithoutHost lib = r2.HashWithoutHost lib := by
  have hfrag : ∀ r : RequestDetails, specMediaKind r = some k → r.Body ≠ "" →
      minifierOf lib k r.Body = .ok minified → specBodyFragment lib r = minified := by
    intro r hk hne hmin
    cases k with
    | json =>
      simp only [minifierOf] at hmin
      simp [specBodyFragment, hne, hk, hmin, minifiedOrRaw]
    | xml =>
      simp only [minifierOf] at hmin
      simp [specBodyFragment, hne, hk, hmin, minifiedOrRaw]
  have h1 := hfrag r1 hk1 hne1 hmin1
  have h2 := hfrag r2 hk2 hne2 hmin2
  constructor
  · simp only [RequestDetails.Hash, concatenate_eq_spec, if_true, h1, h2, hD, hP, hM, hQ]
  · simp only [RequestDetails.HashWithoutHost, concatenate_eq_spec, Bool.false_eq_true,
      if_false, h1, h2, hP, hM, hQ]

/-- The theorem `Hash_canonical_bodies` at the two booking requests with
`Content-Type: application/json`, one with body `{"flightId":"1"}` and one with the same
document on three indented lines. -/
theorem Hash_canonical_bodies_witness :
    compactBooking.Hash strippingLib = indentedBooking.Hash strippingLib
    ∧ compactBooking.HashWithoutHost strippingLib
        = indentedBooking.HashWithoutHost strippingLib :=
  Hash_canonical_bodies strippingLib compactBooking indentedBooking MediaKind.json
    "\x7b\"flightId\":\"1\"\x7d" rfl rfl rfl rfl rfl rfl (by decide) (by decide) rfl rfl

end Hoverfly

/-! ## Body check, absent import data, what the fingerprint reads -/

namespace Hoverfly

/-- C21: the template matcher rejects an entry when the template body equals the request
body. For every request and every entry whose template body is present and equal to the
request body, the entry does not pass the checks and `GetPayload` continues with the next
entry, whatever the other fields of the entry are; a store consisting only of such
entries yields `No match found`. -/
theorem GetPayload_skips_equal_body (store : RequestTemplateStore) (req : Request)
    (reqBody : String) (webserver : Bool)
    (hall : ∀ e ∈ store, e.RequestTemplate.Body = some reqBody) :
    RequestTemplateStore.GetPayload store req reqBody webserver = .error "No match found"
    ∧ (∀ e ∈ store, passesChecks e req reqBody webserver = false)
    ∧ (∀ (entry : RequestTemplatePayload) (rest : RequestTemplateStore),
        entry.RequestTemplate.Body = some reqBody →
        RequestTemplateStore.GetPayload (entry :: rest) req reqBody webserver
          = RequestTemplateStore.GetPayload rest req reqBody webserver) := by
  have hskip : ∀ e : RequestTemplatePayload, e.RequestTemplate.Body = some reqBody →
      passesChecks e req reqBody webserver = false := by
    intro e he
    simp [passesChecks, he, setAndEq]
  refine ⟨?_, fun e he => hskip e (hall e he), ?_⟩
  · exact GetPayload_none_pass store req reqBody webserver
      (fun e he => hskip e (hall e he))
  · intro entry rest he
    rw [GetPayload_cons, hskip entry he]
    simp

/-- The theorem `GetPayload_skips_equal_body` at a store of two entries whose template
body is `abc`, one of them the `/ping` template, asked for `GET /ping` with body `abc`. -/
theorem GetPayload_skips_equal_body_witness :
    RequestTemplateStore.GetPayload
        [⟨bodyOnlyTemplate "abc", plainResponse 200 "one"⟩,
          ⟨pingBodyTemplate "abc", plainResponse 200 "two"⟩]
        pingRequest "abc" false = .error "No match found" :=
  (GetPayload_skips_equal_body
    [⟨bodyOnlyTemplate "abc", plainResponse 200 "one"⟩,
      ⟨pingBodyTemplate "abc", plainResponse 200 "two"⟩]
    pingRequest "abc" false
    (by
      intro e he
      simp only [List.mem_cons, List.mem_singleton, List.mem_nil_iff, or_false] at he
      rcases he with h | h <;> rw [h] <;> rfl)).1

/-- C22: what the code does where the claim expects an error. With `Data` the nil pointer
(the JSON object had no `data` field, or `"data": null`), `ImportPayloads` dereferences
`Data` in `len(*payloadsView.Data)` and panics, for every store; it returns neither nil
nor an error. With `Data` set it does return, an error for an empty list and nil
otherwise. -/
theorem ImportPayloads_nil_data_panics (lib : Lib) (s : RequestTemplateStore) :
    RequestTemplateStore.ImportPayloads lib s { Data := none }
        = .error GoPanic.nilPointerDereference
    ∧ (∀ r, RequestTemplateStore.ImportPayloads lib s { Data := none } ≠ .ok r)
    ∧ (∀ vs : List RequestTemplatePayloadView,
        ∃ r, RequestTemplateStore.ImportPayloads lib s { Data := some vs } = .ok r) := by
  refine ⟨rfl, ?_, ?_⟩
  · intro r h
    cases h
  · intro vs
    rw [ImportPayloads_some]
    by_cases h : vs.length > 0
    · exact ⟨(none, s ++ vs.map (fun v => v.ConvertToPayload lib)), by
        simp only [h, if_true]⟩
    · exact ⟨(some "Bad request. Nothing to import!", s), by simp only [h, if_false]⟩

theorem specBodyFragment_congr_elems (lib : Lib) (r1 r2 : RequestDetails)
    (hB : r1.Body = r2.Body)
    (hCT : (r1.Headers.index "Content-Type").elems
      = (r2.Headers.index "Content-Type").elems) :
    specBodyFragment lib r1 = specBodyFragment lib r2 := by
  simp only [specBodyFragment, specMediaKind, hB, hCT]

theorem specBodyFragment_empty (lib : Lib) (r : RequestDetails) (hB : r.Body = "") :
    specBodyFragment lib r = "" := by
  simp [specBodyFragment, hB]

/-- C23: the fingerprint reads only destination, path, method, query, body and the values
of the `Content-Type` header. Two requests that agree on `Destination`, `Path`, `Method`,
`Query`, `Body` and on the value list of `Content-Type` have equal `Hash` and equal
`HashWithoutHost`, whatever their `Scheme` and other headers are; and two requests with an
empty `Body` that agree on `Destination`, `Path`, `Method` and `Query` have equal `Hash`
and `HashWithoutHost` whatever their headers are. -/
theorem Hash_reads_only_fingerprint_fields (lib : Lib) (r1 r2 : RequestDetails)
    (hD : r1.Destination = r2.Destination) (hP : r1.Path = r2.Path)
    (hM : r1.Method = r2.Method) (hQ : r1.Query = r2.Query) (hB : r1.Body = r2.Body)
    (hCT : (r1.Headers.index "Content-Type").elems
      = (r2.Headers.index "Content-Type").elems) :
    r1.Hash lib = r2.Hash lib
    ∧ r1.HashWithoutHost lib = r2.HashWithoutHost lib
    ∧ (∀ (d p m q s1 s2 : String) (h1 h2 : HeaderMap),
        (RequestDetails.mk p m d s1 q "" h1).Hash lib
            = (RequestDetails.mk p m d s2 q "" h2).Hash lib
        ∧ (RequestDetails.mk p m d s1 q "" h1).HashWithoutHost lib
            = (RequestDetails.mk p m d s2 q "" h2).HashWithoutHost lib) := by
  have hfrag := specBodyFragment_congr_elems lib r1 r2 hB hCT
  refine ⟨?_, ?_, ?_⟩
  · simp only [RequestDetails.Hash, concatenate_eq_spec, if_true, hD, hP, hM, hQ, hfrag]
  · simp only [RequestDetails.HashWithoutHost, concatenate_eq_spec, Bool.false_eq_true,
      if_false, hP, hM, hQ, hfrag]
  · intro d p m q s1 s2 h1 h2
    have e1 := specBodyFragment_empty lib (RequestDetails.mk p m d s1 q "" h1) rfl
    have e2 := specBodyFragment_empty lib (RequestDetails.mk p m d s2 q "" h2) rfl
    constructor
    · simp only [RequestDetails.Hash, concatenate_eq_spec, if_true, e1, e2]
    · simp only [RequestDetails.HashWithoutHost, concatenate_eq_spec, Bool.false_eq_true,
        if_false, e1, e2]

/-- The theorem `Hash_reads_only_fingerprint_fields` at the booking request and the same
request sent over `https` with a further `X-Trace` header. -/
theorem Hash_reads_only_fingerprint_fields_witness :
    compactBooking.Hash sampleLib = tracedBooking.Hash sampleLib
    ∧ compactBooking.HashWithoutHost sampleLib = tracedBooking.HashWithoutHost sampleLib :=
  ⟨(Hash_reads_only_fingerprint_fields sampleLib compactBooking tracedBooking
      rfl rfl rfl rfl rfl (by decide)).1,
   (Hash_reads_only_fingerprint_fields sampleLib compactBooking tracedBooking
      rfl rfl rfl rfl rfl (by decide)).2.1⟩

end Hoverfly
